import Mathlib

/-!
# Verification development for the eth-snapshotter orchestration core

Shallow embedding of the snapshot orchestration code of
`github.com/ethpandaops/eth-snapshotter`:

* the fleet agreement check (`VerifyTargetsAreSynced`, `checkIfAllSameResults`),
* the polling scheduler trigger decision (`BlocksLeftToNextSnapshot`,
  `StartPeriodicPolling`),
* the snapshot lifecycle (`CreateSnapshot`, `PrepareForSnapshot`,
  `UploadSnapshot`, `PostSnapshotStart`) with its admission-control flag,
* the sqlite audit store operations (`internal/db/db.go`),
* the retention cleanup cycle (`cleanupSnapshots`, the per-target,
  persistence-aware version) and
* the schema migrations (`internal/db/migrations.go`).

Goroutine fan-out/fan-in is embedded as follows: every per-target operation of
a phase is dispatched (its remote call appears in the emitted call trace) and
the `errgroup`/`WaitGroup` join is modelled by reducing the per-target results
in fleet order; channels whose reductions are order-insensitive (conjunction of
sync results, all-equal check on heights) are modelled as lists in fleet
order.  Machine integers (`uint64`, sqlite INTEGER) are modelled as `Nat`;
block heights and row ids stay far below `2^64` in this system, and none of
the operations modelled here rely on wrap-around.
-/

namespace EthSnapshotter

/-! ## Agreement check (snapshotter.go: VerifyTargetsAreSynced) -/

/-- One target's consensus-layer sync status as returned by
`GetSyncStatusCL`; `syncDistance` is the already-parsed value of the
`SyncDistance` string (`strconv.Atoi` with its error ignored, hence `0` for an
unparsable string). -/
structure CLSyncStatus where
  isSyncing : Bool
  isOptimistic : Bool
  elOffline : Bool
  syncDistance : Int
deriving DecidableEq

/-- The outcome of the three independent probes `VerifyTargetsAreSynced`
issues for one target: `clStatus = none` models a failed `GetSyncStatusCL`
call, `elSyncOK = false` a failed `GetSyncStatusEL` call, and
`elBlock = none` a failed `GetELBlockNumber` call (`some h` reports the
decoded block height). -/
structure TargetProbe where
  clStatus : Option CLSyncStatus
  elSyncOK : Bool
  elBlock : Option Nat
deriving DecidableEq

/-- The CL goroutine's contribution to `syncResults`: `false` on probe error,
CL syncing, optimistic mode, EL offline, or sync distance above 1. -/
def clCheck (p : TargetProbe) : Bool :=
  match p.clStatus with
  | none => false
  | some st =>
      !st.isSyncing && !st.isOptimistic && !st.elOffline && st.syncDistance ≤ 1

/-- The EL-sync goroutine's contribution to `syncResults`: `false` exactly on
probe error (the returned syncing value is only logged). -/
def elCheck (p : TargetProbe) : Bool :=
  p.elSyncOK

/-- The EL-block goroutine's contribution to `syncResults`. -/
def blockCheck (p : TargetProbe) : Bool :=
  p.elBlock.isSome

/-- The value the EL-block goroutine sends on `blockResults`: the decoded
height, or the sentinel `0` on probe error. -/
def blockValue (p : TargetProbe) : Nat :=
  p.elBlock.getD 0

/-- All three per-target checks of `VerifyTargetsAreSynced`. -/
def targetProbesPass (p : TargetProbe) : Bool :=
  clCheck p && elCheck p && blockCheck p

/-- Helper for `checkIfAllSameResults`: once `firstValue` is set, every later
channel value must equal it; a mismatch short-circuits to `(false, 0)`. -/
def sameAsFirst (first : Nat) : List Nat → Bool × Nat
  | [] => (true, first)
  | v :: rest => if v ≠ first then (false, 0) else sameAsFirst first rest

/-- db-free reduction of the `blockResults` channel
(snapshotter.go: `checkIfAllSameResults`): `(false, 0)` for an empty channel
or on any disagreement, `(true, firstValue)` when every received value equals
the first. -/
def checkIfAllSameResults : List Nat → Bool × Nat
  | [] => (false, 0)
  | v :: rest => sameAsFirst v rest

/-- snapshotter.go: `VerifyTargetsAreSynced`.  `syncResults` collects the
three boolean results per target, `blockResults` one height per target
(the sentinel `0` for a failed height probe); `allSynced` is the conjunction
of all sync results and of the all-equal check, and the returned height is
whatever `checkIfAllSameResults` returned, also when `allSynced` is false. -/
def VerifyTargetsAreSynced (targets : List TargetProbe) : Bool × Nat :=
  let syncResults :=
    targets.flatMap (fun p => [clCheck p, elCheck p, blockCheck p])
  let allSynced := syncResults.all id
  let res := checkIfAllSameResults (targets.map blockValue)
  (allSynced && res.1, res.2)

/-! ## Scheduler (snapshotter.go: BlocksLeftToNextSnapshot, StartPeriodicPolling) -/

/-- snapshotter.go: `BlocksLeftToNextSnapshot`, with the configured
`block_interval` passed explicitly. -/
def BlocksLeftToNextSnapshot (blockInterval blockNumber : Nat) : Nat :=
  let b := blockInterval - blockNumber % blockInterval
  if b = blockInterval then 0 else b

/-- snapshotter.go: the `lastRunIsTooOld` staleness guard of
`StartPeriodicPolling`; `mostRecent` is the block height of the most recent
run returned by `GetMostRecentRun` (`none` when there is no run yet or the
lookup errored, in which case the Go code proceeds with a nil run). -/
def lastRunIsTooOld (blockInterval blockNumber : Nat) (mostRecent : Option Nat) : Bool :=
  match mostRecent with
  | none => false
  | some bh => decide (blockNumber > bh + blockInterval)

/-- snapshotter.go: the per-tick trigger decision of `StartPeriodicPolling`.
`syncRes` is the pair returned by `VerifyTargetsAreSynced`; `CreateSnapshot`
is invoked exactly when this returns `true`. -/
def pollTickTriggers (blockInterval : Nat) (syncRes : Bool × Nat)
    (mostRecent : Option Nat) : Bool :=
  syncRes.1 &&
    (BlocksLeftToNextSnapshot blockInterval syncRes.2 == 0 ||
      lastRunIsTooOld blockInterval syncRes.2 mostRecent)

/-! ## Audit store (internal/db/db.go)

One record per row; `deleted` and `persisted` are the columns added by
migrations 1-3.  sqlite's AUTOINCREMENT ids are modelled by the `nextRunId` /
`nextTargetId` counters.  The field named `UploadPrefix` in the Go structs is
called `uploadPath` here. -/

/-- db.go: one `snapshot_runs` row (struct `SnapshotRun`). -/
structure RunRecord where
  id : Nat
  blockHeight : Nat
  status : String
  errorMessage : String
  dryRun : Bool
  deleted : Bool
  persisted : Bool
deriving DecidableEq

/-- db.go: one `target_snapshots` row (struct `TargetSnapshot`);
`uploadPath` models the `upload_prefix` column. -/
structure TargetRecord where
  id : Nat
  runId : Nat
  aliasName : String
  uploadPath : String
  status : String
  errorMessage : String
  dryRun : Bool
  deleted : Bool
  persisted : Bool
deriving DecidableEq

/-- The two tables of the audit store together with the id counters. -/
structure DBState where
  runs : List RunRecord
  targets : List TargetRecord
  nextRunId : Nat
  nextTargetId : Nat
deriving DecidableEq

/-- db.go: `CreateSnapshotRun` — INSERT with status `running`; the new
columns take their sqlite defaults (`deleted = 0`, `persisted = 0`). -/
def CreateSnapshotRun (db : DBState) (blockHeight : Nat) (dryRun : Bool) :
    RunRecord × DBState :=
  let r : RunRecord :=
    { id := db.nextRunId, blockHeight := blockHeight, status := "running",
      errorMessage := "", dryRun := dryRun, deleted := false, persisted := false }
  (r, { db with runs := db.runs ++ [r], nextRunId := db.nextRunId + 1 })

/-- db.go: `UpdateSnapshotRunStatus` — UPDATE status/error_message WHERE id
matches (end_time is not modelled). -/
def UpdateSnapshotRunStatus (db : DBState) (id : Nat) (status errMsg : String) :
    DBState :=
  { db with runs := db.runs.map (fun r =>
      if r.id = id then { r with status := status, errorMessage := errMsg } else r) }

/-- db.go: `CreateTargetSnapshot` — INSERT with status `running`. -/
def CreateTargetSnapshot (db : DBState) (runId : Nat) (aliasName uploadPath : String)
    (dryRun : Bool) : TargetRecord × DBState :=
  let t : TargetRecord :=
    { id := db.nextTargetId, runId := runId, aliasName := aliasName,
      uploadPath := uploadPath, status := "running", errorMessage := "",
      dryRun := dryRun, deleted := false, persisted := false }
  (t, { db with targets := db.targets ++ [t], nextTargetId := db.nextTargetId + 1 })

/-- db.go: `UpdateTargetSnapshotStatus` — UPDATE status/error_message WHERE
id matches. -/
def UpdateTargetSnapshotStatus (db : DBState) (id : Nat) (status errMsg : String) :
    DBState :=
  { db with targets := db.targets.map (fun t =>
      if t.id = id then { t with status := status, errorMessage := errMsg } else t) }

/-- db.go: `MarkSnapshotRunAsDeleted` — sets `deleted = 1` on the run row and
on every `target_snapshots` row whose `snapshot_run_id` matches. -/
def MarkSnapshotRunAsDeleted (db : DBState) (id : Nat) : DBState :=
  { db with
    runs := db.runs.map (fun r => if r.id = id then { r with deleted := true } else r),
    targets := db.targets.map (fun t =>
      if t.runId = id then { t with deleted := true } else t) }

/-- db.go: `SetSnapshotRunPersisted` — sets the run's `persisted` flag and
cascades the same value to every target row of the run. -/
def SetSnapshotRunPersisted (db : DBState) (id : Nat) (persisted : Bool) : DBState :=
  { db with
    runs := db.runs.map (fun r =>
      if r.id = id then { r with persisted := persisted } else r),
    targets := db.targets.map (fun t =>
      if t.runId = id then { t with persisted := persisted } else t) }

/-- db.go: `SetTargetSnapshotPersisted` — sets the `persisted` flag of the
single target row whose id matches. -/
def SetTargetSnapshotPersisted (db : DBState) (id : Nat) (persisted : Bool) : DBState :=
  { db with targets := db.targets.map (fun t =>
      if t.id = id then { t with persisted := persisted } else t) }

/-- db.go: `MarkTargetSnapshotAsDeleted` — sets `deleted = 1` on the single
target row whose id matches. -/
def MarkTargetSnapshotAsDeleted (db : DBState) (id : Nat) : DBState :=
  { db with targets := db.targets.map (fun t =>
      if t.id = id then { t with deleted := true } else t) }

/-! ## Snapshot lifecycle (snapshotter.go: CreateSnapshot and its phases)

The lifecycle is embedded as a state function over the in-memory
`FleetStatus`, the audit store and an environment fixing the outcome of every
remote operation.  Each phase additionally emits the trace of remote calls it
dispatches; a phase's `errgroup.Wait` is modelled by taking the first error in
fleet order (`errgroup` without a context cancels nothing, so every launched
call appears in the trace even when one fails). -/

/-- types.go: `SnapshotterStatus`, the lock-protected in-memory fleet status
(only the fields the lifecycle touches). -/
structure FleetStatus where
  snapshotInProgress : Bool
  processedBlockHeight : Nat
deriving DecidableEq

/-- The outcome of every remote operation the lifecycle can issue against one
target, together with the target's configuration; `none` means the call
succeeds, `some msg` that it fails with that error. `heightProbe2` is the
result of the Preparing-phase `GetELBlockNumber` re-verification. -/
structure TargetEnv where
  aliasName : String
  dataDir : String
  uploadPathCfg : String
  stopSnooperErr : Option String
  dumpErr : Option String
  stopELErr : Option String
  startSnooperErr : Option String
  startELErr : Option String
  restartBeaconErr : Option String
  heightProbe2 : Option Nat
  uploadErr : Option String
deriving DecidableEq

/-- The fleet configuration plus the configured `dry_run` flag. -/
structure FleetEnv where
  dryRun : Bool
  targets : List TargetEnv
deriving DecidableEq

/-- One remote operation dispatched by the lifecycle. -/
inductive RemoteCall where
  | stopSnooper (aliasName : String)
  | startSnooper (aliasName : String)
  | stopEL (aliasName : String)
  | startEL (aliasName : String)
  | restartBeacon (aliasName : String)
  | probeHeight (aliasName : String)
  | dumpRPC (aliasName : String) (path : String)
  | rcloneSync (aliasName : String)
deriving DecidableEq

/-- First error of a fan-out phase, in fleet order: what `errgroup.Wait`
returns once every launched goroutine has finished. -/
def firstSome (l : List (Option String)) : Option String :=
  (l.filterMap id).head?

/-- The two fixed JSON-RPC dumps `PrepareForSnapshot` writes into a target's
data directory: the second is only attempted when the first succeeded, and a
single environment outcome covers both. -/
def dumpCallsFor (t : TargetEnv) : List RemoteCall :=
  RemoteCall.dumpRPC t.aliasName (t.dataDir ++ "/_snapshot_eth_getBlockByNumber.json") ::
    (if t.dumpErr = none then
      [RemoteCall.dumpRPC t.aliasName (t.dataDir ++ "/_snapshot_web3_clientVersion.json")]
    else [])

/-- snapshotter.go: `PrepareForSnapshot`.  Dry-run mode returns immediately.
Otherwise: stop the snooper on all targets (fail-fast), wait 30s, re-probe all
EL block heights (a failed probe contributes the sentinel `0`), require exact
agreement via `checkIfAllSameResults`, dump the two metadata files, and stop
the EL on all targets. -/
def PrepareForSnapshot (env : FleetEnv) : Except String Unit × List RemoteCall :=
  if env.dryRun then (Except.ok (), [])
  else
    let stopSnooperCalls := env.targets.map (fun t => RemoteCall.stopSnooper t.aliasName)
    match firstSome (env.targets.map (fun t => t.stopSnooperErr)) with
    | some e => (Except.error e, stopSnooperCalls)
    | none =>
      let probeCalls := env.targets.map (fun t => RemoteCall.probeHeight t.aliasName)
      let res := checkIfAllSameResults (env.targets.map (fun t => t.heightProbe2.getD 0))
      if res.1 = false then
        (Except.error ("failed due to not all targets reporting the same block height "
            ++ toString res.2),
          stopSnooperCalls ++ probeCalls)
      else
        let dumpCalls := env.targets.flatMap dumpCallsFor
        match firstSome (env.targets.map (fun t => t.dumpErr)) with
        | some e => (Except.error e, stopSnooperCalls ++ probeCalls ++ dumpCalls)
        | none =>
          let stopELCalls := env.targets.map (fun t => RemoteCall.stopEL t.aliasName)
          match firstSome (env.targets.map (fun t => t.stopELErr)) with
          | some e => (Except.error e, stopSnooperCalls ++ probeCalls ++ dumpCalls ++ stopELCalls)
          | none => (Except.ok (), stopSnooperCalls ++ probeCalls ++ dumpCalls ++ stopELCalls)

/-- snapshotter.go: `PostSnapshotStart`.  Dry-run mode returns immediately;
otherwise start the snooper, start the EL and restart the beacon, each
fan-out fail-fast across targets. -/
def PostSnapshotStart (env : FleetEnv) : Except String Unit × List RemoteCall :=
  if env.dryRun then (Except.ok (), [])
  else
    let startSnooperCalls := env.targets.map (fun t => RemoteCall.startSnooper t.aliasName)
    match firstSome (env.targets.map (fun t => t.startSnooperErr)) with
    | some e => (Except.error e, startSnooperCalls)
    | none =>
      let startELCalls := env.targets.map (fun t => RemoteCall.startEL t.aliasName)
      match firstSome (env.targets.map (fun t => t.startELErr)) with
      | some e => (Except.error e, startSnooperCalls ++ startELCalls)
      | none =>
        let beaconCalls := env.targets.map (fun t => RemoteCall.restartBeacon t.aliasName)
        match firstSome (env.targets.map (fun t => t.restartBeaconErr)) with
        | some e => (Except.error e, startSnooperCalls ++ startELCalls ++ beaconCalls)
        | none => (Except.ok (), startSnooperCalls ++ startELCalls ++ beaconCalls)

/-- Result of the upload phase: the first upload error (what `errgroup.Wait`
returns), the updated audit store, the dispatched rclone calls, and — in
dry-run mode — the finalizations the spawned goroutines will perform, each as
`(delay in seconds, target row id)`. -/
structure UploadOut where
  err : Option String
  db : DBState
  calls : List RemoteCall
  pending : List (Nat × Nat)
deriving DecidableEq

/-- snapshotter.go: the per-target loop of `UploadSnapshot`.  For each target
a `target_snapshots` row is created with the destination
`upload_prefix/processedBlockHeight`.  In dry-run mode the transfer is
skipped and a goroutine is spawned that marks the row as success after 60
seconds.  Otherwise the rclone sync runs for every target regardless of other
targets' failures, and each row is finalized from its own outcome. -/
def uploadTargetsLoop (dryRun : Bool) (runId hgt : Nat) :
    DBState → List RemoteCall → List (Nat × Nat) → Option String →
    List TargetEnv → UploadOut
  | db, calls, pending, errAcc, [] =>
      { err := errAcc, db := db, calls := calls, pending := pending }
  | db, calls, pending, errAcc, t :: ts =>
      let path := t.uploadPathCfg ++ "/" ++ toString hgt
      let created := CreateTargetSnapshot db runId t.aliasName path dryRun
      if dryRun then
        uploadTargetsLoop dryRun runId hgt created.2 calls
          (pending ++ [(60, created.1.id)]) errAcc ts
      else
        match t.uploadErr with
        | some e =>
            uploadTargetsLoop dryRun runId hgt
              (UpdateTargetSnapshotStatus created.2 created.1.id "failed" e)
              (calls ++ [RemoteCall.rcloneSync t.aliasName]) pending
              (match errAcc with | some e0 => some e0 | none => some e) ts
        | none =>
            uploadTargetsLoop dryRun runId hgt
              (UpdateTargetSnapshotStatus created.2 created.1.id "success" "")
              (calls ++ [RemoteCall.rcloneSync t.aliasName]) pending errAcc ts

/-- snapshotter.go: `UploadSnapshot`. -/
def UploadSnapshot (env : FleetEnv) (runId hgt : Nat) (db : DBState) : UploadOut :=
  uploadTargetsLoop env.dryRun runId hgt db [] [] none env.targets

/-- The dry-run finalization goroutines: each sleeps its delay and then marks
its target row as success (`UpdateTargetSnapshotStatus id "success" ""`). -/
def applyPendingFinalizations : DBState → List (Nat × Nat) → DBState
  | db, [] => db
  | db, p :: ps =>
      applyPendingFinalizations (UpdateTargetSnapshotStatus db p.2 "success" "") ps

/-- The admission-control gate of `CreateSnapshot`: under the status lock,
reject when `SnapshotInProgress` is already set, otherwise set it.  The lock
makes the check-and-set atomic, so two concurrent triggers are serialized
into two applications of this step. -/
def acquireSnapshotLock (st : FleetStatus) : Bool × FleetStatus :=
  if st.snapshotInProgress then (false, st)
  else (true, { st with snapshotInProgress := true })

/-- The deferred cleanup of `CreateSnapshot`: clear `SnapshotInProgress`
under the lock; runs on every exit path of the admitted call. -/
def releaseSnapshotLock (st : FleetStatus) : FleetStatus :=
  { st with snapshotInProgress := false }

/-- The error `CreateSnapshot` returns when an attempt is already in
progress (Go: a one-line `fmt.Errorf` message, stated here without its
apostrophe). -/
def alreadyInProgressMsg : String := "there is already a snapshot in progress"

/-- The complete outcome of one `CreateSnapshot` call. -/
structure CreateSnapshotOut where
  res : Option String
  status : FleetStatus
  db : DBState
  calls : List RemoteCall
deriving DecidableEq

/-- snapshotter.go: `CreateSnapshot`.  Admission control first; then create
the `snapshot_runs` row at the processed block height, run Preparing,
Uploading and Restoring, persist any phase failure onto the run row before
returning it, in dry-run mode wait for the spawned finalizations, and mark
the run as success at the end.  The deferred flag clear runs on every exit
path after admission. -/
def CreateSnapshot (env : FleetEnv) (st : FleetStatus) (db : DBState) :
    CreateSnapshotOut :=
  let g := acquireSnapshotLock st
  if g.1 = false then
    { res := some alreadyInProgressMsg, status := g.2, db := db, calls := [] }
  else
    let created := CreateSnapshotRun db st.processedBlockHeight env.dryRun
    let run := created.1
    let db1 := created.2
    let prep := PrepareForSnapshot env
    match prep.1 with
    | Except.error e =>
        { res := some e, status := releaseSnapshotLock g.2,
          db := UpdateSnapshotRunStatus db1 run.id "failed" e, calls := prep.2 }
    | Except.ok _ =>
      let u := UploadSnapshot env run.id st.processedBlockHeight db1
      match u.err with
      | some e =>
          { res := some e, status := releaseSnapshotLock g.2,
            db := UpdateSnapshotRunStatus u.db run.id "failed" e,
            calls := prep.2 ++ u.calls }
      | none =>
        let post := PostSnapshotStart env
        match post.1 with
        | Except.error e =>
            { res := some e, status := releaseSnapshotLock g.2,
              db := UpdateSnapshotRunStatus u.db run.id "failed" e,
              calls := prep.2 ++ u.calls ++ post.2 }
        | Except.ok _ =>
            let db2 := applyPendingFinalizations u.db u.pending
            { res := none, status := releaseSnapshotLock g.2,
              db := UpdateSnapshotRunStatus db2 run.id "success" "",
              calls := prep.2 ++ u.calls ++ post.2 }

/-! ## Retention cleanup (cleanup.go: cleanupSnapshots, per-target version)

Embeds the persistence-aware cleanup cycle: fetch the non-deleted successful
runs with their target rows, keep every run-level-persisted run, keep the
newest `keepCount` non-persisted runs, and process the rest: storage-delete
and soft-delete each non-persisted successful target, then soft-delete the
run once every fetched successful target is already deleted or persisted.
The `allTargetsDeleted` check reads the target rows fetched at the start of
the cycle, not the rows just updated. -/

/-- One fetched run together with the target rows
`GetTargetSnapshotsForRun` returned for it. -/
structure FetchedRun where
  run : RunRecord
  targets : List TargetRecord
deriving DecidableEq

/-- db.go: `GetTargetSnapshotsForRun` — every target row of the run, in
stored order. -/
def GetTargetSnapshotsForRun (db : DBState) (runId : Nat) : List TargetRecord :=
  db.targets.filter (fun t => t.runId == runId)

/-- db.go: `GetSuccessfulRunsForCleanup` — runs with `status = success` and
`deleted = 0`, each with its target rows; the SQL orders by block height
descending, so the stored `runs` list is taken to be in that order. -/
def GetSuccessfulRunsForCleanup (db : DBState) : List FetchedRun :=
  (db.runs.filter (fun r => r.status == "success" && !r.deleted)).map
    (fun r => { run := r, targets := GetTargetSnapshotsForRun db r.id })

/-- The environment of one cleanup cycle: the configured dry-run flag, the
bucket name reported by the S3 client, and the target rows whose
`DeleteDirectory` call fails. -/
structure CleanupEnv where
  dryRun : Bool
  bucketName : String
  failedDeleteIds : List Nat
deriving DecidableEq

/-- One object-storage operation issued by the cleanup cycle. -/
inductive StorageCall where
  | deleteDirectory (bucket : String) (path : String)
deriving DecidableEq

/-- cleanup.go: `deleteTargetSnapshotFiles` — error without any call when no
bucket is configured, skip the call in dry-run mode, otherwise issue
`DeleteDirectory` on the target's upload destination and surface its error. -/
def deleteTargetSnapshotFiles (env : CleanupEnv) (t : TargetRecord) :
    Option String × List StorageCall :=
  if env.bucketName = "" then
    (some "bucket name not configured in S3 settings", [])
  else if env.dryRun then (none, [])
  else if t.id ∈ env.failedDeleteIds then
    (some ("failed to delete snapshot for " ++ t.aliasName), [])
  else (none, [StorageCall.deleteDirectory env.bucketName t.uploadPath])

/-- cleanup.go: the `nonPersistedTargets` deletion loop of one run — delete
each target's storage and, only when that succeeded, soft-delete its row;
a failure moves on to the next target. -/
def cleanupRunTargets (env : CleanupEnv) :
    DBState → List StorageCall → List TargetRecord → DBState × List StorageCall
  | db, calls, [] => (db, calls)
  | db, calls, t :: ts =>
      let d := deleteTargetSnapshotFiles env t
      match d.1 with
      | some _ => cleanupRunTargets env db (calls ++ d.2) ts
      | none => cleanupRunTargets env (MarkTargetSnapshotAsDeleted db t.id) (calls ++ d.2) ts

/-- cleanup.go: processing of one run selected for deletion — partition its
fetched successful targets by the per-target persisted flag, delete the
non-persisted ones, and mark the run deleted once every fetched successful
target is already deleted or persisted (stale in-memory flags). -/
def processRunForCleanup (env : CleanupEnv) (acc : DBState × List StorageCall)
    (fr : FetchedRun) : DBState × List StorageCall :=
  let nonPersistedTargets :=
    (fr.targets.filter (fun t => t.status == "success")).filter (fun t => !t.persisted)
  let acc2 := cleanupRunTargets env acc.1 acc.2 nonPersistedTargets
  let allTargetsDeleted :=
    fr.targets.all (fun t => !(t.status == "success" && !t.deleted && !t.persisted))
  if allTargetsDeleted then (MarkSnapshotRunAsDeleted acc2.1 fr.run.id, acc2.2)
  else acc2

/-- The fold of `cleanupSnapshots` over the runs selected for processing. -/
def processRunsForCleanup (env : CleanupEnv) :
    DBState × List StorageCall → List FetchedRun → DBState × List StorageCall
  | acc, [] => acc
  | acc, fr :: frs => processRunsForCleanup env (processRunForCleanup env acc fr) frs

/-- cleanup.go: `cleanupSnapshots keepCount` — fetch, split off the
run-level-persisted runs, no-op when at most `keepCount` non-persisted runs
remain, otherwise process exactly the non-persisted runs beyond the newest
`keepCount`. -/
def cleanupSnapshots (env : CleanupEnv) (db : DBState) (keepCount : Nat) :
    DBState × List StorageCall :=
  let runs := GetSuccessfulRunsForCleanup db
  let nonPersistedRuns := runs.filter (fun fr => !fr.run.persisted)
  if nonPersistedRuns.length ≤ keepCount then (db, [])
  else processRunsForCleanup env (db, []) (nonPersistedRuns.drop keepCount)

/-! ## Schema migrations (internal/db/migrations.go)

The schema is modelled as the column lists of the two tables plus the
`migrations` ledger (rows `(id, name)` in insertion order).  Each migration
step adds its column only when it is not present yet, exactly like the
`pragma_table_info` guards in the Go code. -/

/-- The schema-level state `RunMigrations` operates on. -/
structure SchemaState where
  snapshotRunsCols : List String
  targetSnapshotsCols : List String
  migrationsTableExists : Bool
  ledger : List (Nat × String)
deriving DecidableEq

/-- ALTER TABLE ... ADD COLUMN guarded by the column-exists check. -/
def addColumnIfMissing (cols : List String) (c : String) : List String :=
  if c ∈ cols then cols else cols ++ [c]

/-- migrations.go: migration 1 — add `deleted` to both tables. -/
def migrateAddDeletedColumn (st : SchemaState) : SchemaState :=
  { st with
    snapshotRunsCols := addColumnIfMissing st.snapshotRunsCols "deleted",
    targetSnapshotsCols := addColumnIfMissing st.targetSnapshotsCols "deleted" }

/-- migrations.go: migration 2 — add `persisted` to `snapshot_runs`. -/
def migrateAddPersistedColumn (st : SchemaState) : SchemaState :=
  { st with snapshotRunsCols := addColumnIfMissing st.snapshotRunsCols "persisted" }

/-- migrations.go: migration 3 — add `persisted` to `target_snapshots`. -/
def migrateAddPersistedColumnToTargetSnapshots (st : SchemaState) : SchemaState :=
  { st with targetSnapshotsCols := addColumnIfMissing st.targetSnapshotsCols "persisted" }

/-- migrations.go: the `migrations` slice — id, name and the step itself, in
order. -/
def migrationSteps : List (Nat × String × (SchemaState → SchemaState)) :=
  [(1, "Add deleted column to snapshot_runs and target_snapshots tables",
      migrateAddDeletedColumn),
   (2, "Add persisted column to snapshot_runs table", migrateAddPersistedColumn),
   (3, "Add persisted column to target_snapshots table",
      migrateAddPersistedColumnToTargetSnapshots)]

/-- The ids of the defined migration steps. -/
def migrationIds : List Nat := migrationSteps.map (fun m => m.1)

/-- The loop of `RunMigrations`: `applied` is the id set read from the ledger
before the loop; every unapplied step runs and is recorded in the ledger,
and the returned list collects the ids that were applied this time. -/
def runMigrationsLoop (applied : List Nat) :
    SchemaState × List Nat → List (Nat × String × (SchemaState → SchemaState)) →
    SchemaState × List Nat
  | acc, [] => acc
  | acc, m :: ms =>
      if m.1 ∈ applied then runMigrationsLoop applied acc ms
      else
        let st1 := m.2.2 acc.1
        runMigrationsLoop applied
          ({ st1 with ledger := st1.ledger ++ [(m.1, m.2.1)] }, acc.2 ++ [m.1]) ms

/-- migrations.go: `RunMigrations` — create the ledger table if missing, read
the applied ids, then apply and record every step not yet applied.  The
second component lists the steps applied by this invocation. -/
def RunMigrations (st0 : SchemaState) : SchemaState × List Nat :=
  let st := { st0 with migrationsTableExists := true }
  let applied := st.ledger.map Prod.fst
  runMigrationsLoop applied (st, []) migrationSteps

/-- The `target_snapshots` row the upload phase leaves behind for one
target: in dry-run mode the freshly created row (status `running`, awaiting
the delayed finalization), otherwise the row finalized from the target's own
rclone outcome.  Used to state the upload-phase theorems. -/
def expectedUploadRecord (dryRun : Bool) (runId hgt tid : Nat) (t : TargetEnv) :
    TargetRecord :=
  if dryRun then
    { id := tid, runId := runId, aliasName := t.aliasName,
      uploadPath := t.uploadPathCfg ++ "/" ++ toString hgt, status := "running",
      errorMessage := "", dryRun := true, deleted := false, persisted := false }
  else
    { id := tid, runId := runId, aliasName := t.aliasName,
      uploadPath := t.uploadPathCfg ++ "/" ++ toString hgt,
      status := match t.uploadErr with | none => "success" | some _ => "failed",
      errorMessage := t.uploadErr.getD "", dryRun := false, deleted := false,
      persisted := false }

/-- First upload error of the fleet, in fleet order: the error
`UploadSnapshot` returns when some target's rclone sync fails. -/
def firstUploadErr (env : FleetEnv) : Option String :=
  firstSome (env.targets.map (fun t => t.uploadErr))

/-- The finalizations the dry-run upload phase schedules: one 60-second
delayed success per created row, with consecutive AUTOINCREMENT ids starting
at `nid`.  Used to state the dry-run theorems. -/
def pendingIdsFrom (nid : Nat) : List TargetEnv → List (Nat × Nat)
  | [] => []
  | _ :: ts => (60, nid) :: pendingIdsFrom (nid + 1) ts

/-! ## Concrete example inputs used by witnesses and counterexamples -/

/-- A CL status that is currently syncing (fails the CL check). -/
def exStatusSyncing : CLSyncStatus := ⟨true, false, false, 0⟩

/-- A fully healthy CL status. -/
def exStatusGood : CLSyncStatus := ⟨false, false, false, 0⟩

/-- A target whose CL is syncing but whose EL probes succeed at height 5. -/
def exProbeSyncingAt5 : TargetProbe := ⟨some exStatusSyncing, true, some 5⟩

/-- A fully healthy target at height 1000. -/
def exProbeGoodAt1000 : TargetProbe := ⟨some exStatusGood, true, some 1000⟩

/-- A target on which every remote operation succeeds. -/
def exTargetOK : TargetEnv :=
  ⟨"geth", "/data/geth", "net/geth", none, none, none, none, none, none, some 7, none⟩

/-- A target whose rclone upload fails. -/
def exTargetUploadFails : TargetEnv :=
  ⟨"neth", "/data/neth", "net/neth", none, none, none, none, none, none, some 7,
    some "rclone sync failed"⟩

/-- A target whose Preparing-phase height probe fails. -/
def exTargetProbeFails : TargetEnv :=
  ⟨"one", "/d1", "p1", none, none, none, none, none, none, none, none⟩

/-- A second target whose Preparing-phase height probe fails. -/
def exTargetProbeFails2 : TargetEnv :=
  ⟨"two", "/d2", "p2", none, none, none, none, none, none, none, none⟩

/-- A single-target dry-run fleet. -/
def exFleetDry : FleetEnv := ⟨true, [exTargetOK]⟩

/-- A two-target non-dry fleet whose second target fails its upload. -/
def exFleetMixed : FleetEnv := ⟨false, [exTargetOK, exTargetUploadFails]⟩

/-- A two-target non-dry fleet on which every height re-probe fails. -/
def exFleetProbesFail : FleetEnv := ⟨false, [exTargetProbeFails, exTargetProbeFails2]⟩

/-- An idle fleet status at processed height 1000. -/
def exStatusIdle : FleetStatus := ⟨false, 1000⟩

/-- A fleet status with a snapshot already in progress. -/
def exStatusBusy : FleetStatus := ⟨true, 1000⟩

/-- An empty audit store. -/
def exDB0 : DBState := ⟨[], [], 1, 1⟩

/-- An audit store with one successful run owning two successful targets. -/
def exRunPersistDb : DBState :=
  ⟨[⟨1, 100, "success", "", false, false, false⟩],
   [⟨10, 1, "a", "pa", "success", "", false, false, false⟩,
    ⟨11, 1, "b", "pb", "success", "", false, false, false⟩], 2, 12⟩

/-- A successful, individually persisted target row. -/
def cexPersistedTarget : TargetRecord :=
  ⟨10, 1, "geth", "net/geth/100", "success", "", false, false, true⟩

/-- An audit store whose single non-persisted successful run owns exactly the
persisted target `cexPersistedTarget`. -/
def cexCleanupDb : DBState :=
  ⟨[⟨1, 100, "success", "", false, false, false⟩], [cexPersistedTarget], 2, 11⟩

/-- A cleanup environment with a configured bucket, no dry-run and no
storage failures. -/
def exCleanupEnv : CleanupEnv := ⟨false, "bkt", []⟩

/-- An audit store with two successful runs (heights 200 and 100), one
successful target each. -/
def exCleanupDb2 : DBState :=
  ⟨[⟨1, 200, "success", "", false, false, false⟩,
    ⟨2, 100, "success", "", false, false, false⟩],
   [⟨10, 1, "a", "pa", "success", "", false, false, false⟩,
    ⟨11, 2, "b", "pb", "success", "", false, false, false⟩], 3, 12⟩

/-- A fresh schema state before any migration ran. -/
def exSchema0 : SchemaState := ⟨["id", "block_height"], ["id", "snapshot_run_id"], false, []⟩

/-! ## Helper lemmas -/

theorem sameAsFirst_fst_iff (first : Nat) (l : List Nat) :
    (sameAsFirst first l).1 = true ↔ ∀ x ∈ l, x = first := by
  induction l with
  | nil => simp [sameAsFirst]
  | cons v rest ih =>
    by_cases h : v = first
    · simpa [sameAsFirst, h] using ih
    · simp [sameAsFirst, h]

theorem sameAsFirst_eq_of_all (first : Nat) (l : List Nat)
    (h : ∀ x ∈ l, x = first) : sameAsFirst first l = (true, first) := by
  induction l with
  | nil => rfl
  | cons v rest ih =>
    have hv : v = first := h v (by simp)
    simp only [sameAsFirst, hv, ne_eq, not_true_eq_false, if_neg, ite_false]
    exact ih (fun x hx => h x (by simp [hx]))

theorem sameAsFirst_eq_zero_of_not_all (first : Nat) (l : List Nat)
    (h : ¬ ∀ x ∈ l, x = first) : sameAsFirst first l = (false, 0) := by
  induction l with
  | nil => exact absurd (by simp) h
  | cons v rest ih =>
    by_cases hv : v = first
    · have : ¬ ∀ x ∈ rest, x = first := by
        intro hall
        exact h (by
          intro x hx
          rcases List.mem_cons.mp hx with h1 | h2
          · exact h1.trans hv
          · exact hall x h2)
      simp only [sameAsFirst, hv, ne_eq, not_true_eq_false, if_neg, ite_false]
      exact ih this
    · simp [sameAsFirst, hv]

theorem checkIfAllSameResults_fst_iff (l : List Nat) :
    (checkIfAllSameResults l).1 = true ↔ l ≠ [] ∧ ∀ x ∈ l, ∀ y ∈ l, x = y := by
  cases l with
  | nil => simp [checkIfAllSameResults]
  | cons v rest =>
    simp only [checkIfAllSameResults, sameAsFirst_fst_iff, ne_eq, List.cons_ne_nil,
      not_false_eq_true, true_and]
    constructor
    · intro h x hx y hy
      rcases List.mem_cons.mp hx with h1 | h2 <;> rcases List.mem_cons.mp hy with h3 | h4
      · exact h1.trans h3.symm
      · exact h1.trans (h y h4).symm
      · exact (h x h2).trans h3.symm
      · exact (h x h2).trans (h y h4).symm
    · intro h x hx
      exact h x (by simp [hx]) v (by simp)

theorem checkIfAllSameResults_cons_of_all (v : Nat) (rest : List Nat)
    (h : ∀ x ∈ rest, x = v) : checkIfAllSameResults (v :: rest) = (true, v) :=
  sameAsFirst_eq_of_all v rest h

theorem firstSome_eq_none_of_all (l : List (Option String))
    (h : ∀ x ∈ l, x = none) : firstSome l = none := by
  have : l.filterMap id = [] := by
    rw [List.filterMap_eq_nil_iff]
    intro a ha
    simp [h a ha]
  simp [firstSome, this]

/-! ## Claim theorems: agreement check -/

/-- Claim C1, counterexample: a single-target fleet whose CL is syncing but
whose height probe succeeds at height 5 fails the per-target checks, yet
`VerifyTargetsAreSynced` reports `(false, 5)` — not the `(false, 0)` the
claim demands for every non-passing case. -/
theorem verifyTargetsAreSynced_height_not_zeroed_cex :
    targetProbesPass exProbeSyncingAt5 = false ∧
      VerifyTargetsAreSynced [exProbeSyncingAt5] = (false, 5) := by
  decide

/-- Claim C1 (amended): `VerifyTargetsAreSynced` returns `allSynced = true`
iff the fleet is non-empty, every per-target check passes and the collected
heights (a failed probe contributing the sentinel 0) are pairwise equal; the
reported height is the common collected height whenever the collected
heights agree on a non-empty fleet — also when `allSynced` is false — and 0
exactly when they disagree or the fleet is empty. -/
theorem verifyTargetsAreSynced_agreement (ts : List TargetProbe) :
    ((VerifyTargetsAreSynced ts).1 = true ↔
      ts ≠ [] ∧ (∀ p ∈ ts, targetProbesPass p = true) ∧
        ∀ p ∈ ts, ∀ q ∈ ts, blockValue p = blockValue q)
    ∧ (∀ p0 ps, ts = p0 :: ps →
        (∀ p ∈ ts, ∀ q ∈ ts, blockValue p = blockValue q) →
        (VerifyTargetsAreSynced ts).2 = blockValue p0)
    ∧ ((¬ ∀ p ∈ ts, ∀ q ∈ ts, blockValue p = blockValue q) ∨ ts = [] →
        (VerifyTargetsAreSynced ts).2 = 0) := by
  refine ⟨?_, ?_, ?_⟩
  · simp only [VerifyTargetsAreSynced, Bool.and_eq_true, List.all_eq_true,
      List.mem_flatMap, checkIfAllSameResults_fst_iff, List.mem_map, id,
      forall_exists_index, and_imp]
    constructor
    · rintro ⟨hsync, hne, heq⟩
      refine ⟨by simpa using hne, ?_, ?_⟩
      · intro p hp
        have hc : clCheck p = true := by simpa using hsync (clCheck p) p hp (by simp)
        have he : elCheck p = true := by simpa using hsync (elCheck p) p hp (by simp)
        have hb : blockCheck p = true := by simpa using hsync (blockCheck p) p hp (by simp)
        simp [targetProbesPass, hc, he, hb]
      · intro p hp q hq
        exact heq (blockValue p) p hp rfl (blockValue q) q hq rfl
    · rintro ⟨hne, hpass, heq⟩
      refine ⟨?_, by simpa using hne, ?_⟩
      · intro b p hp hb
        have hpp := hpass p hp
        simp only [targetProbesPass, Bool.and_eq_true] at hpp
        simp only [List.mem_cons, List.not_mem_nil, or_false] at hb
        rcases hb with h | h | h
        · subst h; simpa using hpp.1.1
        · subst h; simpa using hpp.1.2
        · subst h; simpa using hpp.2
      · intro x p hp hx y q hq hy
        exact hx ▸ hy ▸ heq p hp q hq
  · rintro p0 ps rfl heq
    have : ∀ x ∈ ps.map blockValue, x = blockValue p0 := by
      intro x hx
      rcases List.mem_map.mp hx with ⟨q, hq, rfl⟩
      exact heq q (by simp [hq]) p0 (by simp)
    simp [VerifyTargetsAreSynced, checkIfAllSameResults_cons_of_all _ _ this]
  · rintro (h | rfl)
    · cases ts with
      | nil => rfl
      | cons p0 ps =>
        have : ¬ ∀ x ∈ ps.map blockValue, x = blockValue p0 := by
          intro hall
          apply h
          intro p hp q hq
          have hval : ∀ r ∈ p0 :: ps, blockValue r = blockValue p0 := by
            intro r hr
            rcases List.mem_cons.mp hr with h1 | h2
            · rw [h1]
            · exact hall (blockValue r) (List.mem_map.mpr ⟨r, h2, rfl⟩)
          exact (hval p hp).trans (hval q hq).symm
        simp only [VerifyTargetsAreSynced, List.map_cons, checkIfAllSameResults,
          sameAsFirst_eq_zero_of_not_all _ _ this]
    · rfl

/-- Claim C1 witness: a healthy two-target fleet agreeing at height 1000 is
reported synced at height 1000, via the amended agreement theorem. -/
theorem verifyTargetsAreSynced_agreement_witness :
    (VerifyTargetsAreSynced [exProbeGoodAt1000, exProbeGoodAt1000]).1 = true ∧
      (VerifyTargetsAreSynced [exProbeGoodAt1000, exProbeGoodAt1000]).2 = 1000 := by
  constructor
  · exact (verifyTargetsAreSynced_agreement [exProbeGoodAt1000, exProbeGoodAt1000]).1.mpr
      ⟨by decide, by decide, by decide⟩
  · exact (verifyTargetsAreSynced_agreement [exProbeGoodAt1000, exProbeGoodAt1000]).2.1
      exProbeGoodAt1000 [exProbeGoodAt1000] rfl (by decide)

/-- Claim C10: during the Preparing-phase height re-verification a failed
probe contributes the sentinel height 0, so a fleet on which every probe
fails collects only zeros, the equality check reports agreement at height 0,
and (with the phase's other remote operations succeeding) the phase returns
ok instead of recording a failure. -/
theorem prepare_reverify_all_failed_probes_proceeds (env : FleetEnv)
    (hdry : env.dryRun = false) (hne : env.targets ≠ [])
    (hprobe : ∀ t ∈ env.targets, t.heightProbe2 = none)
    (hsnoop : ∀ t ∈ env.targets, t.stopSnooperErr = none)
    (hdump : ∀ t ∈ env.targets, t.dumpErr = none)
    (hstopel : ∀ t ∈ env.targets, t.stopELErr = none) :
    checkIfAllSameResults (env.targets.map (fun t => t.heightProbe2.getD 0)) = (true, 0)
    ∧ (PrepareForSnapshot env).1 = Except.ok () := by
  have hcheck :
      checkIfAllSameResults (env.targets.map (fun t => t.heightProbe2.getD 0)) = (true, 0) := by
    obtain ⟨t0, ts, hts⟩ := List.exists_cons_of_ne_nil hne
    have h0 : ∀ t ∈ env.targets, t.heightProbe2.getD 0 = 0 := by
      intro t ht
      simp [hprobe t ht]
    rw [hts, List.map_cons, h0 t0 (by simp [hts])]
    apply checkIfAllSameResults_cons_of_all
    intro x hx
    rcases List.mem_map.mp hx with ⟨t, ht, rfl⟩
    exact h0 t (by simp [hts, ht])
  have h1 : firstSome (env.targets.map (fun t => t.stopSnooperErr)) = none := by
    apply firstSome_eq_none_of_all
    intro x hx
    rcases List.mem_map.mp hx with ⟨t, ht, rfl⟩
    exact hsnoop t ht
  have h2 : firstSome (env.targets.map (fun t => t.dumpErr)) = none := by
    apply firstSome_eq_none_of_all
    intro x hx
    rcases List.mem_map.mp hx with ⟨t, ht, rfl⟩
    exact hdump t ht
  have h3 : firstSome (env.targets.map (fun t => t.stopELErr)) = none := by
    apply firstSome_eq_none_of_all
    intro x hx
    rcases List.mem_map.mp hx with ⟨t, ht, rfl⟩
    exact hstopel t ht
  refine ⟨hcheck, ?_⟩
  simp [PrepareForSnapshot, hdry, h1, h2, h3, hcheck]

/-- Claim C10 witness: a two-target fleet on which every height probe fails
passes the re-verification at height 0 and completes the Preparing phase. -/
theorem prepare_reverify_all_failed_probes_proceeds_witness :
    checkIfAllSameResults (exFleetProbesFail.targets.map (fun t => t.heightProbe2.getD 0))
        = (true, 0)
    ∧ (PrepareForSnapshot exFleetProbesFail).1 = Except.ok () :=
  prepare_reverify_all_failed_probes_proceeds exFleetProbesFail rfl (by decide)
    (by decide) (by decide) (by decide) (by decide)

/-! ## Claim theorems: scheduler -/

theorem blocksLeft_eq_zero_iff (blockInterval h : Nat) (hI : 0 < blockInterval) :
    BlocksLeftToNextSnapshot blockInterval h = 0 ↔ h % blockInterval = 0 := by
  have hlt : h % blockInterval < blockInterval := Nat.mod_lt _ hI
  unfold BlocksLeftToNextSnapshot
  by_cases hm : h % blockInterval = 0
  · simp [hm]
  · have hne : blockInterval - h % blockInterval ≠ blockInterval := by omega
    simp only [hne, ite_false]
    omega

/-- Claim C6: on a tick where the fleet is synced at height `h`, a snapshot
is triggered iff the normalized blocks-left value is zero — equivalently `h`
is an exact multiple of the block interval — or the most recent attempt
exists and `h` strictly exceeds its block height plus one full interval. -/
theorem pollTick_trigger_iff (blockInterval : Nat) (syncRes : Bool × Nat)
    (mostRecent : Option Nat) (hI : 0 < blockInterval) (hsync : syncRes.1 = true) :
    (pollTickTriggers blockInterval syncRes mostRecent = true ↔
      (BlocksLeftToNextSnapshot blockInterval syncRes.2 = 0 ∨
        ∃ bh, mostRecent = some bh ∧ bh + blockInterval < syncRes.2))
    ∧ (BlocksLeftToNextSnapshot blockInterval syncRes.2 = 0 ↔
        syncRes.2 % blockInterval = 0) := by
  refine ⟨?_, blocksLeft_eq_zero_iff blockInterval syncRes.2 hI⟩
  simp only [pollTickTriggers, hsync, Bool.true_and, Bool.or_eq_true, beq_iff_eq]
  cases mostRecent with
  | none => simp [lastRunIsTooOld]
  | some bh =>
    simp only [lastRunIsTooOld, decide_eq_true_eq]
    constructor
    · rintro (h | h)
      · exact Or.inl h
      · exact Or.inr ⟨bh, rfl, h⟩
    · rintro (h | ⟨bh2, hbh2, h⟩)
      · exact Or.inl h
      · cases hbh2
        exact Or.inr h

/-- Claim C6 witness: with interval 10, a synced fleet at height 25 whose
most recent attempt was at height 10 triggers via the staleness guard. -/
theorem pollTick_trigger_iff_witness :
    pollTickTriggers 10 (true, 25) (some 10) = true ∧ 0 < 10 :=
  ⟨(pollTick_trigger_iff 10 (true, 25) (some 10) (by decide) rfl).1.mpr
      (Or.inr ⟨10, rfl, by decide⟩),
    by decide⟩

/-! ## Claim theorems: admission control -/

/-- Claim C2: `CreateSnapshot` is admission-controlled by the lock-protected
`SnapshotInProgress` flag.  A call that finds the flag set performs no phase
work, touches neither the audit store nor the flag, and returns the
already-in-progress error; an admitted call leaves the flag cleared on every
exit path; and since the lock makes the check-and-set atomic, two concurrent
triggers serialize into two `acquireSnapshotLock` steps of which exactly the
first is admitted. -/
theorem createSnapshot_admission_control (env : FleetEnv) (st : FleetStatus)
    (db : DBState) :
    (st.snapshotInProgress = true →
      CreateSnapshot env st db =
        { res := some alreadyInProgressMsg, status := st, db := db, calls := [] })
    ∧ (st.snapshotInProgress = false →
      (CreateSnapshot env st db).status.snapshotInProgress = false)
    ∧ (st.snapshotInProgress = false →
      (acquireSnapshotLock st).1 = true ∧
        (acquireSnapshotLock (acquireSnapshotLock st).2).1 = false) := by
  refine ⟨?_, ?_, ?_⟩
  · intro h
    simp [CreateSnapshot, acquireSnapshotLock, h]
  · intro h
    simp only [CreateSnapshot, acquireSnapshotLock, h, Bool.false_eq_true, if_false,
      if_neg, ite_false]
    cases hp : (PrepareForSnapshot env).1 with
    | error e => simp [releaseSnapshotLock]
    | ok u =>
      cases hu : (UploadSnapshot env (CreateSnapshotRun db st.processedBlockHeight
          env.dryRun).1.id st.processedBlockHeight
          (CreateSnapshotRun db st.processedBlockHeight env.dryRun).2).err with
      | some e => simp [releaseSnapshotLock]
      | none =>
        cases hpost : (PostSnapshotStart env).1 with
        | error e => simp [releaseSnapshotLock]
        | ok v => simp [releaseSnapshotLock]
  · intro h
    simp [acquireSnapshotLock, h]

/-- Claim C2 witness: a call on a busy status is rejected unchanged, and
from an idle status the first of two serialized lock acquisitions is
admitted while the second is rejected. -/
theorem createSnapshot_admission_control_witness :
    CreateSnapshot exFleetDry exStatusBusy exDB0 =
      { res := some alreadyInProgressMsg, status := exStatusBusy, db := exDB0, calls := [] }
    ∧ (acquireSnapshotLock exStatusIdle).1 = true
    ∧ (acquireSnapshotLock (acquireSnapshotLock exStatusIdle).2).1 = false :=
  ⟨(createSnapshot_admission_control exFleetDry exStatusBusy exDB0).1 rfl,
    (createSnapshot_admission_control exFleetDry exStatusIdle exDB0).2.2 rfl⟩

/-! ## Claim theorems: persistence flags -/

/-- Claim C5: `SetSnapshotRunPersisted id true` sets the persisted flag on
the run row and on every target row of the run; a subsequent
`SetTargetSnapshotPersisted tid false` leaves the runs table unchanged,
leaves every target row whose id differs from `tid` unchanged, and clears
exactly the persisted flag of the rows with id `tid`. -/
theorem setPersisted_cascade_and_frame (db : DBState) (rid tid : Nat) :
    (∀ t ∈ (SetSnapshotRunPersisted db rid true).targets,
        t.runId = rid → t.persisted = true)
    ∧ (∀ r ∈ (SetSnapshotRunPersisted db rid true).runs, r.id = rid → r.persisted = true)
    ∧ (SetTargetSnapshotPersisted (SetSnapshotRunPersisted db rid true) tid false).runs
        = (SetSnapshotRunPersisted db rid true).runs
    ∧ (∀ (k : Nat) (t : TargetRecord),
        (SetSnapshotRunPersisted db rid true).targets[k]? = some t → t.id ≠ tid →
        (SetTargetSnapshotPersisted (SetSnapshotRunPersisted db rid true) tid
            false).targets[k]? = some t)
    ∧ (∀ (k : Nat) (t : TargetRecord),
        (SetSnapshotRunPersisted db rid true).targets[k]? = some t → t.id = tid →
        (SetTargetSnapshotPersisted (SetSnapshotRunPersisted db rid true) tid
            false).targets[k]? = some { t with persisted := false }) := by
  refine ⟨?_, ?_, rfl, ?_, ?_⟩
  · intro t ht hrun
    rcases List.mem_map.mp ht with ⟨t0, _, rfl⟩
    by_cases h : t0.runId = rid
    · simp [h]
    · simp [h] at hrun ⊢
  · intro r hr hid
    rcases List.mem_map.mp hr with ⟨r0, _, rfl⟩
    by_cases h : r0.id = rid
    · simp [h]
    · simp [h] at hid ⊢
  · intro k t ht hne
    simp [SetTargetSnapshotPersisted, List.getElem?_map, ht, hne]
  · intro k t ht heq
    simp [SetTargetSnapshotPersisted, List.getElem?_map, ht, heq]

/-- Claim C5 witness: on a store with one run owning targets 10 and 11,
persisting the run persists both targets; un-persisting target 10 leaves the
run row and target 11 untouched. -/
theorem setPersisted_cascade_and_frame_witness :
    (∀ t ∈ (SetSnapshotRunPersisted exRunPersistDb 1 true).targets,
        t.runId = 1 → t.persisted = true)
    ∧ (SetTargetSnapshotPersisted (SetSnapshotRunPersisted exRunPersistDb 1 true) 10
        false).runs = (SetSnapshotRunPersisted exRunPersistDb 1 true).runs
    ∧ (SetTargetSnapshotPersisted (SetSnapshotRunPersisted exRunPersistDb 1 true) 10
        false).targets[1]? = (SetSnapshotRunPersisted exRunPersistDb 1 true).targets[1]? :=
  ⟨(setPersisted_cascade_and_frame exRunPersistDb 1 10).1,
    (setPersisted_cascade_and_frame exRunPersistDb 1 10).2.2.1,
    by
      have := (setPersisted_cascade_and_frame exRunPersistDb 1 10).2.2.2.1 1
        ⟨11, 1, "b", "pb", "success", "", false, false, true⟩ (by decide) (by decide)
      rw [this]
      decide⟩

/-! ## Upload-loop lemmas -/

theorem uploadTargetsLoop_nil (dryRun : Bool) (runId hgt : Nat) (db : DBState)
    (calls : List RemoteCall) (pending : List (Nat × Nat)) (errAcc : Option String) :
    uploadTargetsLoop dryRun runId hgt db calls pending errAcc []
      = { err := errAcc, db := db, calls := calls, pending := pending } := rfl

theorem uploadTargetsLoop_cons_dry (runId hgt : Nat) (db : DBState)
    (calls : List RemoteCall) (pending : List (Nat × Nat)) (errAcc : Option String)
    (t : TargetEnv) (ts : List TargetEnv) :
    uploadTargetsLoop true runId hgt db calls pending errAcc (t :: ts)
      = uploadTargetsLoop true runId hgt
          (CreateTargetSnapshot db runId t.aliasName
            (t.uploadPathCfg ++ "/" ++ toString hgt) true).2
          calls (pending ++ [(60, db.nextTargetId)]) errAcc ts := rfl

theorem uploadTargetsLoop_cons_err (runId hgt : Nat) (db : DBState)
    (calls : List RemoteCall) (pending : List (Nat × Nat)) (errAcc : Option String)
    (t : TargetEnv) (ts : List TargetEnv) (e : String) (hu : t.uploadErr = some e) :
    uploadTargetsLoop false runId hgt db calls pending errAcc (t :: ts)
      = uploadTargetsLoop false runId hgt
          (UpdateTargetSnapshotStatus
            (CreateTargetSnapshot db runId t.aliasName
              (t.uploadPathCfg ++ "/" ++ toString hgt) false).2
            db.nextTargetId "failed" e)
          (calls ++ [RemoteCall.rcloneSync t.aliasName]) pending
          (match errAcc with | some e0 => some e0 | none => some e) ts := by
  simp only [uploadTargetsLoop, hu, Bool.false_eq_true, if_false, ite_false]
  rfl

theorem uploadTargetsLoop_cons_ok (runId hgt : Nat) (db : DBState)
    (calls : List RemoteCall) (pending : List (Nat × Nat)) (errAcc : Option String)
    (t : TargetEnv) (ts : List TargetEnv) (hu : t.uploadErr = none) :
    uploadTargetsLoop false runId hgt db calls pending errAcc (t :: ts)
      = uploadTargetsLoop false runId hgt
          (UpdateTargetSnapshotStatus
            (CreateTargetSnapshot db runId t.aliasName
              (t.uploadPathCfg ++ "/" ++ toString hgt) false).2
            db.nextTargetId "success" "")
          (calls ++ [RemoteCall.rcloneSync t.aliasName]) pending errAcc ts := by
  simp only [uploadTargetsLoop, hu, Bool.false_eq_true, if_false, ite_false]
  rfl

theorem uploadTargetsLoop_runs (dryRun : Bool) (runId hgt : Nat) (ts : List TargetEnv) :
    ∀ (db : DBState) (calls : List RemoteCall) (pending : List (Nat × Nat))
      (errAcc : Option String),
    (uploadTargetsLoop dryRun runId hgt db calls pending errAcc ts).db.runs = db.runs := by
  induction ts with
  | nil => intro db calls pending errAcc; rfl
  | cons t ts ih =>
    intro db calls pending errAcc
    cases dryRun with
    | true => rw [uploadTargetsLoop_cons_dry, ih]; rfl
    | false =>
      cases hu : t.uploadErr with
      | some e =>
        rw [uploadTargetsLoop_cons_err runId hgt db calls pending errAcc t ts e hu, ih]
        rfl
      | none =>
        rw [uploadTargetsLoop_cons_ok runId hgt db calls pending errAcc t ts hu, ih]
        rfl

theorem uploadTargetsLoop_nextTargetId (dryRun : Bool) (runId hgt : Nat)
    (ts : List TargetEnv) :
    ∀ (db : DBState) (calls : List RemoteCall) (pending : List (Nat × Nat))
      (errAcc : Option String),
    (uploadTargetsLoop dryRun runId hgt db calls pending errAcc ts).db.nextTargetId
      = db.nextTargetId + ts.length := by
  induction ts with
  | nil => intro db calls pending errAcc; rfl
  | cons t ts ih =>
    intro db calls pending errAcc
    cases dryRun with
    | true =>
      rw [uploadTargetsLoop_cons_dry, ih]
      simp [CreateTargetSnapshot]
      omega
    | false =>
      cases hu : t.uploadErr with
      | some e =>
        rw [uploadTargetsLoop_cons_err runId hgt db calls pending errAcc t ts e hu, ih]
        simp [CreateTargetSnapshot, UpdateTargetSnapshotStatus]
        omega
      | none =>
        rw [uploadTargetsLoop_cons_ok runId hgt db calls pending errAcc t ts hu, ih]
        simp [CreateTargetSnapshot, UpdateTargetSnapshotStatus]
        omega

theorem uploadTargetsLoop_targets_length (dryRun : Bool) (runId hgt : Nat)
    (ts : List TargetEnv) :
    ∀ (db : DBState) (calls : List RemoteCall) (pending : List (Nat × Nat))
      (errAcc : Option String),
    (uploadTargetsLoop dryRun runId hgt db calls pending errAcc ts).db.targets.length
      = db.targets.length + ts.length := by
  induction ts with
  | nil => intro db calls pending errAcc; rfl
  | cons t ts ih =>
    intro db calls pending errAcc
    cases dryRun with
    | true =>
      rw [uploadTargetsLoop_cons_dry, ih]
      simp [CreateTargetSnapshot]
      omega
    | false =>
      cases hu : t.uploadErr with
      | some e =>
        rw [uploadTargetsLoop_cons_err runId hgt db calls pending errAcc t ts e hu, ih]
        simp [CreateTargetSnapshot, UpdateTargetSnapshotStatus]
        omega
      | none =>
        rw [uploadTargetsLoop_cons_ok runId hgt db calls pending errAcc t ts hu, ih]
        simp [CreateTargetSnapshot, UpdateTargetSnapshotStatus]
        omega

theorem uploadTargetsLoop_calls_nondry (runId hgt : Nat) (ts : List TargetEnv) :
    ∀ (db : DBState) (calls : List RemoteCall) (pending : List (Nat × Nat))
      (errAcc : Option String),
    (uploadTargetsLoop false runId hgt db calls pending errAcc ts).calls
      = calls ++ ts.map (fun t => RemoteCall.rcloneSync t.aliasName) := by
  induction ts with
  | nil => intro db calls pending errAcc; simp [uploadTargetsLoop_nil]
  | cons t ts ih =>
    intro db calls pending errAcc
    cases hu : t.uploadErr with
    | some e =>
      rw [uploadTargetsLoop_cons_err runId hgt db calls pending errAcc t ts e hu, ih]
      simp
    | none =>
      rw [uploadTargetsLoop_cons_ok runId hgt db calls pending errAcc t ts hu, ih]
      simp

theorem uploadTargetsLoop_calls_dry (runId hgt : Nat) (ts : List TargetEnv) :
    ∀ (db : DBState) (calls : List RemoteCall) (pending : List (Nat × Nat))
      (errAcc : Option String),
    (uploadTargetsLoop true runId hgt db calls pending errAcc ts).calls = calls := by
  induction ts with
  | nil => intro db calls pending errAcc; rfl
  | cons t ts ih =>
    intro db calls pending errAcc
    rw [uploadTargetsLoop_cons_dry, ih]

theorem uploadTargetsLoop_err_nondry (runId hgt : Nat) (ts : List TargetEnv) :
    ∀ (db : DBState) (calls : List RemoteCall) (pending : List (Nat × Nat))
      (errAcc : Option String),
    (uploadTargetsLoop false runId hgt db calls pending errAcc ts).err
      = (match errAcc with
          | some e => some e
          | none => firstSome (ts.map (fun t => t.uploadErr))) := by
  induction ts with
  | nil =>
    intro db calls pending errAcc
    cases errAcc <;> simp [uploadTargetsLoop_nil, firstSome]
  | cons t ts ih =>
    intro db calls pending errAcc
    cases hu : t.uploadErr with
    | some e =>
      rw [uploadTargetsLoop_cons_err runId hgt db calls pending errAcc t ts e hu, ih]
      cases errAcc <;> simp [firstSome, hu]
    | none =>
      rw [uploadTargetsLoop_cons_ok runId hgt db calls pending errAcc t ts hu, ih]
      cases errAcc <;> simp [firstSome, hu]

theorem uploadTargetsLoop_err_dry (runId hgt : Nat) (ts : List TargetEnv) :
    ∀ (db : DBState) (calls : List RemoteCall) (pending : List (Nat × Nat))
      (errAcc : Option String),
    (uploadTargetsLoop true runId hgt db calls pending errAcc ts).err = errAcc := by
  induction ts with
  | nil => intro db calls pending errAcc; rfl
  | cons t ts ih =>
    intro db calls pending errAcc
    rw [uploadTargetsLoop_cons_dry, ih]

theorem uploadTargetsLoop_pending_dry (runId hgt : Nat) (ts : List TargetEnv) :
    ∀ (db : DBState) (calls : List RemoteCall) (pending : List (Nat × Nat))
      (errAcc : Option String),
    (uploadTargetsLoop true runId hgt db calls pending errAcc ts).pending
      = pending ++ pendingIdsFrom db.nextTargetId ts := by
  induction ts with
  | nil => intro db calls pending errAcc; simp [uploadTargetsLoop_nil, pendingIdsFrom]
  | cons t ts ih =>
    intro db calls pending errAcc
    rw [uploadTargetsLoop_cons_dry, ih]
    simp [CreateTargetSnapshot, pendingIdsFrom]

theorem uploadTargetsLoop_pending_nondry (runId hgt : Nat) (ts : List TargetEnv) :
    ∀ (db : DBState) (calls : List RemoteCall) (pending : List (Nat × Nat))
      (errAcc : Option String),
    (uploadTargetsLoop false runId hgt db calls pending errAcc ts).pending = pending := by
  induction ts with
  | nil => intro db calls pending errAcc; rfl
  | cons t ts ih =>
    intro db calls pending errAcc
    cases hu : t.uploadErr with
    | some e => rw [uploadTargetsLoop_cons_err runId hgt db calls pending errAcc t ts e hu, ih]
    | none => rw [uploadTargetsLoop_cons_ok runId hgt db calls pending errAcc t ts hu, ih]

theorem uploadTargetsLoop_frame (dryRun : Bool) (runId hgt : Nat) (ts : List TargetEnv) :
    ∀ (db : DBState) (calls : List RemoteCall) (pending : List (Nat × Nat))
      (errAcc : Option String) (i : Nat) (r : TargetRecord),
    db.targets[i]? = some r → r.id < db.nextTargetId →
    (uploadTargetsLoop dryRun runId hgt db calls pending errAcc ts).db.targets[i]?
      = some r := by
  induction ts with
  | nil => intro db calls pending errAcc i r h _; exact h
  | cons t ts ih =>
    intro db calls pending errAcc i r h hid
    have hi : i < db.targets.length := (List.getElem?_eq_some_iff.mp h).1
    have happ : ∀ (x : TargetRecord), (db.targets ++ [x])[i]? = some r := by
      intro x
      rw [List.getElem?_append_left hi]
      exact h
    cases dryRun with
    | true =>
      rw [uploadTargetsLoop_cons_dry]
      exact ih _ _ _ _ _ _ (happ _) (by simp [CreateTargetSnapshot]; omega)
    | false =>
      have hupd : ∀ (s msg : String),
          (UpdateTargetSnapshotStatus
            (CreateTargetSnapshot db runId t.aliasName
              (t.uploadPathCfg ++ "/" ++ toString hgt) false).2
            db.nextTargetId s msg).targets[i]? = some r := by
        intro s msg
        simp only [UpdateTargetSnapshotStatus, CreateTargetSnapshot, List.getElem?_map,
          happ _, Option.map_some]
        have : r.id ≠ db.nextTargetId := by omega
        simp [this]
      cases hu : t.uploadErr with
      | some e =>
        rw [uploadTargetsLoop_cons_err runId hgt db calls pending errAcc t ts e hu]
        exact ih _ _ _ _ _ _ (hupd _ _)
          (by simp [CreateTargetSnapshot, UpdateTargetSnapshotStatus]; omega)
      | none =>
        rw [uploadTargetsLoop_cons_ok runId hgt db calls pending errAcc t ts hu]
        exact ih _ _ _ _ _ _ (hupd _ _)
          (by simp [CreateTargetSnapshot, UpdateTargetSnapshotStatus]; omega)

theorem uploadTargetsLoop_records (dryRun : Bool) (runId hgt : Nat) (ts : List TargetEnv) :
    ∀ (db : DBState) (calls : List RemoteCall) (pending : List (Nat × Nat))
      (errAcc : Option String) (k : Nat) (t : TargetEnv),
    ts[k]? = some t →
    (uploadTargetsLoop dryRun runId hgt db calls pending errAcc
        ts).db.targets[db.targets.length + k]?
      = some (expectedUploadRecord dryRun runId hgt (db.nextTargetId + k) t) := by
  induction ts with
  | nil => intro db calls pending errAcc k t h; simp at h
  | cons t0 ts ih =>
    intro db calls pending errAcc k t h
    cases k with
    | zero =>
      have ht : t0 = t := by simpa using h
      subst ht
      rw [Nat.add_zero, Nat.add_zero]
      cases dryRun with
      | true =>
        rw [uploadTargetsLoop_cons_dry]
        apply uploadTargetsLoop_frame
        · show ((db.targets ++ [_])[db.targets.length]? = _)
          rw [List.getElem?_concat_length]
          simp [expectedUploadRecord, CreateTargetSnapshot]
        · simp [expectedUploadRecord, CreateTargetSnapshot]
      | false =>
        cases hu : t0.uploadErr with
        | some e =>
          rw [uploadTargetsLoop_cons_err runId hgt db calls pending errAcc t0 ts e hu]
          apply uploadTargetsLoop_frame
          · simp only [UpdateTargetSnapshotStatus, CreateTargetSnapshot,
              List.getElem?_map, List.getElem?_concat_length, Option.map_some]
            simp [expectedUploadRecord, hu]
          · simp only [UpdateTargetSnapshotStatus, CreateTargetSnapshot]
            simp [expectedUploadRecord]
        | none =>
          rw [uploadTargetsLoop_cons_ok runId hgt db calls pending errAcc t0 ts hu]
          apply uploadTargetsLoop_frame
          · simp only [UpdateTargetSnapshotStatus, CreateTargetSnapshot,
              List.getElem?_map, List.getElem?_concat_length, Option.map_some]
            simp [expectedUploadRecord, hu]
          · simp only [UpdateTargetSnapshotStatus, CreateTargetSnapshot]
            simp [expectedUploadRecord]
    | succ k =>
      have h2 : ts[k]? = some t := by simpa using h
      cases dryRun with
      | true =>
        rw [uploadTargetsLoop_cons_dry]
        have := ih (CreateTargetSnapshot db runId t0.aliasName
            (t0.uploadPathCfg ++ "/" ++ toString hgt) true).2
          calls (pending ++ [(60, db.nextTargetId)]) errAcc k t h2
        rw [show db.targets.length + (k + 1)
            = (CreateTargetSnapshot db runId t0.aliasName
                (t0.uploadPathCfg ++ "/" ++ toString hgt) true).2.targets.length + k by
              simp [CreateTargetSnapshot]; omega,
          show db.nextTargetId + (k + 1)
            = (CreateTargetSnapshot db runId t0.aliasName
                (t0.uploadPathCfg ++ "/" ++ toString hgt) true).2.nextTargetId + k by
              simp [CreateTargetSnapshot]; omega]
        exact this
      | false =>
        cases hu : t0.uploadErr with
        | some e =>
          rw [uploadTargetsLoop_cons_err runId hgt db calls pending errAcc t0 ts e hu]
          have := ih (UpdateTargetSnapshotStatus
              (CreateTargetSnapshot db runId t0.aliasName
                (t0.uploadPathCfg ++ "/" ++ toString hgt) false).2
              db.nextTargetId "failed" e)
            (calls ++ [RemoteCall.rcloneSync t0.aliasName]) pending
            (match errAcc with | some e0 => some e0 | none => some e) k t h2
          rw [show db.targets.length + (k + 1)
              = (UpdateTargetSnapshotStatus
                  (CreateTargetSnapshot db runId t0.aliasName
                    (t0.uploadPathCfg ++ "/" ++ toString hgt) false).2
                  db.nextTargetId "failed" e).targets.length + k by
                simp [CreateTargetSnapshot, UpdateTargetSnapshotStatus]; omega,
            show db.nextTargetId + (k + 1)
              = (UpdateTargetSnapshotStatus
                  (CreateTargetSnapshot db runId t0.aliasName
                    (t0.uploadPathCfg ++ "/" ++ toString hgt) false).2
                  db.nextTargetId "failed" e).nextTargetId + k by
                simp [CreateTargetSnapshot, UpdateTargetSnapshotStatus]; omega]
          exact this
        | none =>
          rw [uploadTargetsLoop_cons_ok runId hgt db calls pending errAcc t0 ts hu]
          have := ih (UpdateTargetSnapshotStatus
              (CreateTargetSnapshot db runId t0.aliasName
                (t0.uploadPathCfg ++ "/" ++ toString hgt) false).2
              db.nextTargetId "success" "")
            (calls ++ [RemoteCall.rcloneSync t0.aliasName]) pending errAcc k t h2
          rw [show db.targets.length + (k + 1)
              = (UpdateTargetSnapshotStatus
                  (CreateTargetSnapshot db runId t0.aliasName
                    (t0.uploadPathCfg ++ "/" ++ toString hgt) false).2
                  db.nextTargetId "success" "").targets.length + k by
                simp [CreateTargetSnapshot, UpdateTargetSnapshotStatus]; omega,
            show db.nextTargetId + (k + 1)
              = (UpdateTargetSnapshotStatus
                  (CreateTargetSnapshot db runId t0.aliasName
                    (t0.uploadPathCfg ++ "/" ++ toString hgt) false).2
                  db.nextTargetId "success" "").nextTargetId + k by
                simp [CreateTargetSnapshot, UpdateTargetSnapshotStatus]; omega]
          exact this

theorem applyPendingFinalizations_runs (ps : List (Nat × Nat)) :
    ∀ db : DBState, (applyPendingFinalizations db ps).runs = db.runs := by
  induction ps with
  | nil => intro db; rfl
  | cons p ps ih =>
    intro db
    show (applyPendingFinalizations (UpdateTargetSnapshotStatus db p.2 "success" "") ps).runs
      = db.runs
    rw [ih]
    rfl

theorem applyPendingFinalizations_entry (ps : List (Nat × Nat)) :
    ∀ (db : DBState) (i : Nat) (r : TargetRecord), db.targets[i]? = some r →
    (applyPendingFinalizations db ps).targets[i]?
      = some (if r.id ∈ ps.map Prod.snd then
          { r with status := "success", errorMessage := "" } else r) := by
  induction ps with
  | nil => intro db i r h; simpa using h
  | cons p ps ih =>
    intro db i r h
    have hstep : (UpdateTargetSnapshotStatus db p.2 "success" "").targets[i]?
        = some (if r.id = p.2 then { r with status := "success", errorMessage := "" }
            else r) := by
      simp only [UpdateTargetSnapshotStatus, List.getElem?_map, h]
      rfl
    show (applyPendingFinalizations (UpdateTargetSnapshotStatus db p.2 "success" "")
        ps).targets[i]? = _
    by_cases hid : r.id = p.2
    · rw [ih _ i { r with status := "success", errorMessage := "" }
        (by rw [hstep, if_pos hid])]
      simp only [List.map_cons, List.mem_cons, hid, true_or, if_true, ite_true]
      split <;> rfl
    · rw [ih _ i r (by rw [hstep, if_neg hid])]
      simp only [List.map_cons, List.mem_cons, hid, false_or]

theorem mem_pendingIdsFrom (ts : List TargetEnv) :
    ∀ (nid k : Nat), k < ts.length → (60, nid + k) ∈ pendingIdsFrom nid ts := by
  induction ts with
  | nil => intro nid k h; simp at h
  | cons t ts ih =>
    intro nid k h
    cases k with
    | zero => simp [pendingIdsFrom]
    | succ k =>
      have := ih (nid + 1) k (by simpa using h)
      rw [show nid + (k + 1) = nid + 1 + k by omega]
      exact List.mem_cons_of_mem _ this

/-! ## Claim theorems: upload phase -/

/-- Claim C4: in a non-dry upload phase every target's rclone sync is
dispatched regardless of the other targets' outcomes (the call trace of
`UploadSnapshot` always lists one sync per target); each target's row is
finalized independently from its own outcome (`success` with empty error, or
`failed` with that target's error); and when some target fails, the whole
attempt is marked failed with the first failing target's error message while
each succeeding target's row still reads `success`. -/
theorem uploadPhase_no_fail_fast (env : FleetEnv) (st : FleetStatus) (db : DBState)
    (e : String) (hdry : env.dryRun = false) (hflag : st.snapshotInProgress = false)
    (hprep : (PrepareForSnapshot env).1 = Except.ok ())
    (hfail : firstUploadErr env = some e) :
    (∀ (rid2 hgt2 : Nat) (db2 : DBState),
        (UploadSnapshot env rid2 hgt2 db2).calls
          = env.targets.map (fun t => RemoteCall.rcloneSync t.aliasName))
    ∧ (∀ (k : Nat) (t : TargetEnv), env.targets[k]? = some t →
        (CreateSnapshot env st db).db.targets[db.targets.length + k]?
          = some (expectedUploadRecord false db.nextRunId st.processedBlockHeight
              (db.nextTargetId + k) t))
    ∧ (CreateSnapshot env st db).res = some e
    ∧ (CreateSnapshot env st db).db.runs[db.runs.length]?
        = some { id := db.nextRunId, blockHeight := st.processedBlockHeight,
                 status := "failed", errorMessage := e, dryRun := false,
                 deleted := false, persisted := false } := by
  have hue : ∀ (rid2 hgt2 : Nat) (db2 : DBState),
      (UploadSnapshot env rid2 hgt2 db2).err = some e := by
    intro rid2 hgt2 db2
    simp only [UploadSnapshot, hdry, uploadTargetsLoop_err_nondry]
    simpa [firstUploadErr] using hfail
  have hred : CreateSnapshot env st db
      = { res := some e,
          status := releaseSnapshotLock { st with snapshotInProgress := true },
          db := UpdateSnapshotRunStatus
            (UploadSnapshot env db.nextRunId st.processedBlockHeight
              (CreateSnapshotRun db st.processedBlockHeight env.dryRun).2).db
            db.nextRunId "failed" e,
          calls := (PrepareForSnapshot env).2
            ++ (UploadSnapshot env db.nextRunId st.processedBlockHeight
                (CreateSnapshotRun db st.processedBlockHeight env.dryRun).2).calls } := by
    simp only [CreateSnapshot, acquireSnapshotLock, hflag, Bool.false_eq_true,
      Bool.true_eq_false, if_false, ite_false, hprep, hue, CreateSnapshotRun]
  refine ⟨?_, ?_, ?_, ?_⟩
  · intro rid2 hgt2 db2
    simp only [UploadSnapshot, hdry, uploadTargetsLoop_calls_nondry, List.nil_append]
  · intro k t hk
    rw [hred]
    show (UploadSnapshot env db.nextRunId st.processedBlockHeight
        (CreateSnapshotRun db st.processedBlockHeight env.dryRun).2).db.targets[
          db.targets.length + k]? = _
    simp only [UploadSnapshot, hdry]
    exact uploadTargetsLoop_records false db.nextRunId st.processedBlockHeight
      env.targets (CreateSnapshotRun db st.processedBlockHeight false).2
      [] [] none k t hk
  · rw [hred]
  · rw [hred]
    have hruns : (UploadSnapshot env db.nextRunId st.processedBlockHeight
        (CreateSnapshotRun db st.processedBlockHeight env.dryRun).2).db.runs
        = db.runs ++ [{ id := db.nextRunId, blockHeight := st.processedBlockHeight,
                        status := "running", errorMessage := "", dryRun := env.dryRun,
                        deleted := false, persisted := false }] := by
      simp only [UploadSnapshot, hdry, uploadTargetsLoop_runs]
      rfl
    simp only [UpdateSnapshotRunStatus, List.getElem?_map, hruns,
      List.getElem?_concat_length]
    simp [hdry]

/-- Claim C4 witness: on a fleet of two targets where the second target's
upload fails with `rclone sync failed`, both syncs are dispatched, the first
target's row reads success, the second reads failed, and the attempt is
marked failed with that message. -/
theorem uploadPhase_no_fail_fast_witness :
    (UploadSnapshot exFleetMixed 7 1000 exDB0).calls
      = [RemoteCall.rcloneSync "geth", RemoteCall.rcloneSync "neth"]
    ∧ (CreateSnapshot exFleetMixed exStatusIdle exDB0).db.targets[0]?
      = some { id := 1, runId := 1, aliasName := "geth",
               uploadPath := "net/geth/1000", status := "success", errorMessage := "",
               dryRun := false, deleted := false, persisted := false }
    ∧ (CreateSnapshot exFleetMixed exStatusIdle exDB0).db.targets[1]?
      = some { id := 2, runId := 1, aliasName := "neth",
               uploadPath := "net/neth/1000", status := "failed",
               errorMessage := "rclone sync failed", dryRun := false, deleted := false,
               persisted := false }
    ∧ (CreateSnapshot exFleetMixed exStatusIdle exDB0).res = some "rclone sync failed"
    ∧ (CreateSnapshot exFleetMixed exStatusIdle exDB0).db.runs[0]?
      = some { id := 1, blockHeight := 1000, status := "failed",
               errorMessage := "rclone sync failed", dryRun := false, deleted := false,
               persisted := false } := by
  have h := uploadPhase_no_fail_fast exFleetMixed exStatusIdle exDB0
    "rclone sync failed" rfl rfl rfl rfl
  refine ⟨by simpa using h.1 7 1000 exDB0, ?_, ?_, h.2.2.1, by simpa using h.2.2.2⟩
  · have := h.2.1 0 exTargetOK (by decide)
    simpa [expectedUploadRecord, exDB0, exTargetOK, exStatusIdle] using this
  · have := h.2.1 1 exTargetUploadFails (by decide)
    simpa [expectedUploadRecord, exDB0, exTargetUploadFails, exStatusIdle] using this

/-- Claim C8: with dry-run configured, Preparing and Restoring return
immediately with an empty remote-call trace, the whole attempt issues no
remote call at all; the upload phase dispatches no transfer yet creates one
row per target with status `running` and schedules one 60-second delayed
success finalization per row; and the final store shows every created row
finalized as `success` and the attempt itself marked `success`. -/
theorem createSnapshot_dry_run (env : FleetEnv) (st : FleetStatus) (db : DBState)
    (hdry : env.dryRun = true) (hflag : st.snapshotInProgress = false) :
    PrepareForSnapshot env = (Except.ok (), [])
    ∧ PostSnapshotStart env = (Except.ok (), [])
    ∧ (CreateSnapshot env st db).calls = []
    ∧ (∀ (rid2 hgt2 : Nat) (db2 : DBState),
        (UploadSnapshot env rid2 hgt2 db2).calls = []
        ∧ (UploadSnapshot env rid2 hgt2 db2).pending
            = pendingIdsFrom db2.nextTargetId env.targets
        ∧ (∀ (k : Nat) (t : TargetEnv), env.targets[k]? = some t →
            (UploadSnapshot env rid2 hgt2 db2).db.targets[db2.targets.length + k]?
              = some (expectedUploadRecord true rid2 hgt2 (db2.nextTargetId + k) t)))
    ∧ (∀ (k : Nat) (t : TargetEnv), env.targets[k]? = some t →
        (CreateSnapshot env st db).db.targets[db.targets.length + k]?
          = some { expectedUploadRecord true db.nextRunId st.processedBlockHeight
              (db.nextTargetId + k) t with status := "success" })
    ∧ (CreateSnapshot env st db).db.runs[db.runs.length]?
        = some { id := db.nextRunId, blockHeight := st.processedBlockHeight,
                 status := "success", errorMessage := "", dryRun := true,
                 deleted := false, persisted := false }
    ∧ (CreateSnapshot env st db).res = none := by
  have hprep8 : PrepareForSnapshot env = (Except.ok (), []) := by
    simp [PrepareForSnapshot, hdry]
  have hpost8 : PostSnapshotStart env = (Except.ok (), []) := by
    simp [PostSnapshotStart, hdry]
  have huerr : ∀ (rid2 hgt2 : Nat) (db2 : DBState),
      (UploadSnapshot env rid2 hgt2 db2).err = none := by
    intro rid2 hgt2 db2
    simp [UploadSnapshot, hdry, uploadTargetsLoop_err_dry]
  have hucalls : ∀ (rid2 hgt2 : Nat) (db2 : DBState),
      (UploadSnapshot env rid2 hgt2 db2).calls = [] := by
    intro rid2 hgt2 db2
    simp [UploadSnapshot, hdry, uploadTargetsLoop_calls_dry]
  have hupend : ∀ (rid2 hgt2 : Nat) (db2 : DBState),
      (UploadSnapshot env rid2 hgt2 db2).pending
        = pendingIdsFrom db2.nextTargetId env.targets := by
    intro rid2 hgt2 db2
    simp [UploadSnapshot, hdry, uploadTargetsLoop_pending_dry]
  have hurec : ∀ (rid2 hgt2 : Nat) (db2 : DBState) (k : Nat) (t : TargetEnv),
      env.targets[k]? = some t →
      (UploadSnapshot env rid2 hgt2 db2).db.targets[db2.targets.length + k]?
        = some (expectedUploadRecord true rid2 hgt2 (db2.nextTargetId + k) t) := by
    intro rid2 hgt2 db2 k t hk
    simp only [UploadSnapshot, hdry]
    exact uploadTargetsLoop_records true rid2 hgt2 env.targets db2 [] [] none k t hk
  have hred : CreateSnapshot env st db
      = { res := none,
          status := releaseSnapshotLock { st with snapshotInProgress := true },
          db := UpdateSnapshotRunStatus
            (applyPendingFinalizations
              (UploadSnapshot env db.nextRunId st.processedBlockHeight
                (CreateSnapshotRun db st.processedBlockHeight true).2).db
              (UploadSnapshot env db.nextRunId st.processedBlockHeight
                (CreateSnapshotRun db st.processedBlockHeight true).2).pending)
            db.nextRunId "success" "",
          calls := (PrepareForSnapshot env).2
            ++ (UploadSnapshot env db.nextRunId st.processedBlockHeight
                (CreateSnapshotRun db st.processedBlockHeight true).2).calls
            ++ (PostSnapshotStart env).2 } := by
    simp only [CreateSnapshot, acquireSnapshotLock, hflag, Bool.false_eq_true,
      Bool.true_eq_false, if_false, ite_false, hprep8, hpost8, huerr, hdry,
      CreateSnapshotRun]
  refine ⟨hprep8, hpost8, ?_, fun rid2 hgt2 db2 =>
    ⟨hucalls rid2 hgt2 db2, hupend rid2 hgt2 db2, hurec rid2 hgt2 db2⟩, ?_, ?_, ?_⟩
  · rw [hred]
    simp [hprep8, hpost8, hucalls]
  · intro k t hk
    rw [hred]
    show (applyPendingFinalizations _ _).targets[db.targets.length + k]? = _
    have hklen : k < env.targets.length := (List.getElem?_eq_some_iff.mp hk).1
    have hrec : (UploadSnapshot env db.nextRunId st.processedBlockHeight
        (CreateSnapshotRun db st.processedBlockHeight true).2).db.targets[
          db.targets.length + k]?
        = some (expectedUploadRecord true db.nextRunId st.processedBlockHeight
            (db.nextTargetId + k) t) :=
      hurec db.nextRunId st.processedBlockHeight
        (CreateSnapshotRun db st.processedBlockHeight true).2 k t hk
    have hmem : (expectedUploadRecord true db.nextRunId st.processedBlockHeight
        (db.nextTargetId + k) t).id
        ∈ ((UploadSnapshot env db.nextRunId st.processedBlockHeight
            (CreateSnapshotRun db st.processedBlockHeight true).2).pending).map
          Prod.snd := by
      rw [hupend]
      have h60 := mem_pendingIdsFrom env.targets db.nextTargetId k hklen
      have : (expectedUploadRecord true db.nextRunId st.processedBlockHeight
          (db.nextTargetId + k) t).id = db.nextTargetId + k := by
        simp [expectedUploadRecord]
      rw [this]
      exact List.mem_map_of_mem Prod.snd h60
    rw [applyPendingFinalizations_entry _ _ _ _ hrec, if_pos hmem]
    simp [expectedUploadRecord]
  · rw [hred]
    have hruns : (applyPendingFinalizations
        (UploadSnapshot env db.nextRunId st.processedBlockHeight
          (CreateSnapshotRun db st.processedBlockHeight true).2).db
        (UploadSnapshot env db.nextRunId st.processedBlockHeight
          (CreateSnapshotRun db st.processedBlockHeight true).2).pending).runs
        = db.runs ++ [{ id := db.nextRunId, blockHeight := st.processedBlockHeight,
                        status := "running", errorMessage := "", dryRun := true,
                        deleted := false, persisted := false }] := by
      rw [applyPendingFinalizations_runs]
      simp only [UploadSnapshot, hdry, uploadTargetsLoop_runs]
      rfl
    simp only [UpdateSnapshotRunStatus, List.getElem?_map, hruns,
      List.getElem?_concat_length]
    simp
  · rw [hred]

/-- Claim C8 witness: a single-target dry run issues no remote call, creates
the target row as `running` with one 60-second delayed finalization, and
ends with both the row and the attempt marked `success`. -/
theorem createSnapshot_dry_run_witness :
    (CreateSnapshot exFleetDry exStatusIdle exDB0).calls = []
    ∧ (UploadSnapshot exFleetDry 1 1000 exDB0).calls = []
    ∧ (UploadSnapshot exFleetDry 1 1000 exDB0).pending = [(60, 1)]
    ∧ (UploadSnapshot exFleetDry 1 1000 exDB0).db.targets[0]?
      = some { id := 1, runId := 1, aliasName := "geth",
               uploadPath := "net/geth/1000", status := "running", errorMessage := "",
               dryRun := true, deleted := false, persisted := false }
    ∧ (CreateSnapshot exFleetDry exStatusIdle exDB0).db.targets[0]?
      = some { id := 1, runId := 1, aliasName := "geth",
               uploadPath := "net/geth/1000", status := "success", errorMessage := "",
               dryRun := true, deleted := false, persisted := false }
    ∧ (CreateSnapshot exFleetDry exStatusIdle exDB0).db.runs[0]?
      = some { id := 1, blockHeight := 1000, status := "success", errorMessage := "",
               dryRun := true, deleted := false, persisted := false }
    ∧ (CreateSnapshot exFleetDry exStatusIdle exDB0).res = none := by
  have h := createSnapshot_dry_run exFleetDry exStatusIdle exDB0 rfl rfl
  refine ⟨h.2.2.1, (h.2.2.2.1 1 1000 exDB0).1, ?_, ?_, ?_, by simpa using h.2.2.2.2.2.1,
    h.2.2.2.2.2.2⟩
  · rw [(h.2.2.2.1 1 1000 exDB0).2.1]
    decide
  · have := (h.2.2.2.1 1 1000 exDB0).2.2 0 exTargetOK (by decide)
    simpa [expectedUploadRecord, exDB0, exTargetOK] using this
  · have := h.2.2.2.2.1 0 exTargetOK (by decide)
    simpa [expectedUploadRecord, exDB0, exTargetOK, exStatusIdle] using this

/-! ## Claim theorems: retention safety (code bug) -/

/-- Claim C3, evaluated at the failing input: one non-persisted successful
run beyond `keepCount = 0` whose only successful target is individually
persisted.  The cycle issues no storage delete (that half of the claim
holds), but `MarkSnapshotRunAsDeleted` — invoked because every fetched
successful target is deleted-or-persisted — cascades `deleted = 1` onto the
persisted target row, contradicting the claim that a persisted target's
deleted flag is never set. -/
theorem cleanup_sets_deleted_on_persisted_target_bug :
    cexPersistedTarget.persisted = true
    ∧ (cleanupSnapshots exCleanupEnv cexCleanupDb 0).2 = []
    ∧ (cleanupSnapshots exCleanupEnv cexCleanupDb 0).1.targets
        = [{ cexPersistedTarget with deleted := true }] := by
  decide

/-! ## Migration lemmas (internal/db/migrations.go) -/

theorem runMigrationsLoop_cons (applied : List Nat) (acc : SchemaState × List Nat)
    (m : Nat × String × (SchemaState → SchemaState))
    (ms : List (Nat × String × (SchemaState → SchemaState))) :
    runMigrationsLoop applied acc (m :: ms)
      = if m.1 ∈ applied then runMigrationsLoop applied acc ms
        else runMigrationsLoop applied
          ({ m.2.2 acc.1 with ledger := (m.2.2 acc.1).ledger ++ [(m.1, m.2.1)] },
            acc.2 ++ [m.1]) ms := rfl

theorem runMigrationsLoop_skip_all (applied : List Nat)
    (ms : List (Nat × String × (SchemaState → SchemaState))) :
    ∀ acc : SchemaState × List Nat, (∀ m ∈ ms, m.1 ∈ applied) →
    runMigrationsLoop applied acc ms = acc := by
  induction ms with
  | nil => intro acc _; rfl
  | cons m ms ih =>
    intro acc h
    have hm : m.1 ∈ applied := h m (by simp)
    rw [runMigrationsLoop_cons, if_pos hm]
    exact ih acc (fun m2 hm2 => h m2 (by simp [hm2]))

theorem runMigrationsLoop_ledger (applied : List Nat)
    (ms : List (Nat × String × (SchemaState → SchemaState)))
    (hpres : ∀ m ∈ ms, ∀ st : SchemaState, (m.2.2 st).ledger = st.ledger) :
    ∀ acc : SchemaState × List Nat,
    (runMigrationsLoop applied acc ms).1.ledger
      = acc.1.ledger ++ (ms.filter (fun m => decide (m.1 ∉ applied))).map
          (fun m => (m.1, m.2.1)) := by
  induction ms with
  | nil => intro acc; simp [runMigrationsLoop]
  | cons m ms ih =>
    intro acc
    have hpres2 : ∀ m2 ∈ ms, ∀ st : SchemaState, (m2.2.2 st).ledger = st.ledger :=
      fun m2 hm2 => hpres m2 (by simp [hm2])
    by_cases hm : m.1 ∈ applied
    · rw [runMigrationsLoop_cons, if_pos hm, ih hpres2]
      simp [List.filter_cons, hm]
    · rw [runMigrationsLoop_cons, if_neg hm, ih hpres2]
      simp only [List.filter_cons, hm, not_false_eq_true, decide_True, if_true,
        ite_true, List.map_cons]
      rw [hpres m (by simp)]
      simp

theorem runMigrationsLoop_table (applied : List Nat)
    (ms : List (Nat × String × (SchemaState → SchemaState)))
    (hpres : ∀ m ∈ ms, ∀ st : SchemaState,
      (m.2.2 st).migrationsTableExists = st.migrationsTableExists) :
    ∀ acc : SchemaState × List Nat,
    (runMigrationsLoop applied acc ms).1.migrationsTableExists
      = acc.1.migrationsTableExists := by
  induction ms with
  | nil => intro acc; rfl
  | cons m ms ih =>
    intro acc
    have hpres2 : ∀ m2 ∈ ms, ∀ st : SchemaState,
        (m2.2.2 st).migrationsTableExists = st.migrationsTableExists :=
      fun m2 hm2 => hpres m2 (by simp [hm2])
    by_cases hm : m.1 ∈ applied
    · rw [runMigrationsLoop_cons, if_pos hm, ih hpres2]
    · rw [runMigrationsLoop_cons, if_neg hm, ih hpres2]
      exact hpres m (by simp) acc.1

theorem migrationSteps_preserve_ledger :
    ∀ m ∈ migrationSteps, ∀ st : SchemaState, (m.2.2 st).ledger = st.ledger := by
  intro m hm st
  simp only [migrationSteps, List.mem_cons, List.not_mem_nil, or_false] at hm
  rcases hm with rfl | rfl | rfl <;> rfl

theorem migrationSteps_preserve_table :
    ∀ m ∈ migrationSteps, ∀ st : SchemaState,
      (m.2.2 st).migrationsTableExists = st.migrationsTableExists := by
  intro m hm st
  simp only [migrationSteps, List.mem_cons, List.not_mem_nil, or_false] at hm
  rcases hm with rfl | rfl | rfl <;> rfl

theorem runMigrations_ledger (st0 : SchemaState) :
    (RunMigrations st0).1.ledger
      = st0.ledger ++ (migrationSteps.filter
          (fun m => decide (m.1 ∉ st0.ledger.map Prod.fst))).map
          (fun m => (m.1, m.2.1)) := by
  exact runMigrationsLoop_ledger _ _ migrationSteps_preserve_ledger _

theorem runMigrations_table (st0 : SchemaState) :
    (RunMigrations st0).1.migrationsTableExists = true := by
  exact runMigrationsLoop_table _ _ migrationSteps_preserve_table _

theorem schemaState_eta (s : SchemaState) (h : s.migrationsTableExists = true) :
    { s with migrationsTableExists := true } = s := by
  cases s
  simp_all

theorem migration_ids_in_ledger (st0 : SchemaState) :
    ∀ i ∈ migrationIds, i ∈ (RunMigrations st0).1.ledger.map Prod.fst := by
  intro i hi
  rw [runMigrations_ledger, List.map_append, List.mem_append]
  by_cases h0 : i ∈ st0.ledger.map Prod.fst
  · exact Or.inl h0
  · right
    rcases List.mem_map.mp hi with ⟨m, hm, rfl⟩
    rw [List.map_map]
    refine List.mem_map.mpr ⟨m, ?_, rfl⟩
    refine List.mem_filter.mpr ⟨hm, ?_⟩
    simp only [decide_eq_true_eq]
    exact h0

theorem ledger_count_eq (l : List (Nat × String)) (i : Nat) :
    (l.filter (fun e => e.1 == i)).length = (l.map Prod.fst).count i := by
  rw [List.count_eq_countP, List.countP_map, ← List.countP_eq_length_filter]
  rfl

/-! ## Claim theorems: migrations -/

/-- Claim C9: running `RunMigrations` a second time on a database on which it
already succeeded changes nothing and applies no migration step (the second
component, the ids applied by that invocation, is empty); and after the
first run the ledger holds exactly one record per defined migration step
(given the ledger's primary-key uniqueness).  The model has no failure path,
matching the error-free second run. -/
theorem runMigrations_idempotent (st0 : SchemaState)
    (hnodup : (st0.ledger.map Prod.fst).Nodup) :
    RunMigrations (RunMigrations st0).1 = ((RunMigrations st0).1, [])
    ∧ ∀ i ∈ migrationIds,
        ((RunMigrations st0).1.ledger.filter (fun e => e.1 == i)).length = 1 := by
  constructor
  · show runMigrationsLoop _ _ migrationSteps = _
    rw [schemaState_eta _ (runMigrations_table st0)]
    exact runMigrationsLoop_skip_all _ _ _
      (fun m hm => migration_ids_in_ledger st0 m.1 (List.mem_map.mpr ⟨m, hm, rfl⟩))
  · intro i hi
    rw [ledger_count_eq, runMigrations_ledger, List.map_append, List.count_append]
    by_cases h0 : i ∈ st0.ledger.map Prod.fst
    · have h1 : (st0.ledger.map Prod.fst).count i = 1 :=
        List.count_eq_one_of_mem hnodup h0
      have h2 : i ∉ ((migrationSteps.filter
          (fun m => decide (m.1 ∉ st0.ledger.map Prod.fst))).map
            (fun m => (m.1, m.2.1))).map Prod.fst := by
        intro hmem
        rw [List.map_map] at hmem
        rcases List.mem_map.mp hmem with ⟨m, hm, hfst⟩
        have hnm := (List.mem_filter.mp hm).2
        simp only [decide_eq_true_eq] at hnm
        have hfst2 : m.1 = i := hfst
        exact hnm (by rw [hfst2]; exact h0)
      rw [h1, List.count_eq_zero_of_not_mem h2]
    · have h1 : (st0.ledger.map Prod.fst).count i = 0 :=
        List.count_eq_zero_of_not_mem h0
      have hnd : ((migrationSteps.filter
          (fun m => decide (m.1 ∉ st0.ledger.map Prod.fst))).map
            (fun m => (m.1, m.2.1))).map Prod.fst
          = (migrationSteps.filter
              (fun m => decide (m.1 ∉ st0.ledger.map Prod.fst))).map
              (fun m => m.1) := by
        rw [List.map_map]
        rfl
      have hsub : ((migrationSteps.filter
          (fun m => decide (m.1 ∉ st0.ledger.map Prod.fst))).map
            (fun m => m.1)).Nodup := by
        have hms : (migrationSteps.map (fun m => m.1)).Nodup := by decide
        exact hms.sublist (List.Sublist.map _ (List.filter_sublist _))
      have hmem : i ∈ (migrationSteps.filter
          (fun m => decide (m.1 ∉ st0.ledger.map Prod.fst))).map (fun m => m.1) := by
        rcases List.mem_map.mp hi with ⟨m, hm, rfl⟩
        refine List.mem_map.mpr ⟨m, List.mem_filter.mpr ⟨hm, ?_⟩, rfl⟩
        simp only [decide_eq_true_eq]
        exact h0
      rw [h1, hnd, List.count_eq_one_of_mem hsub hmem]

/-- Claim C9 witness: on a fresh schema the first run applies steps 1-3, the
second run applies nothing and leaves the state unchanged, and the ledger
holds one record per step. -/
theorem runMigrations_idempotent_witness :
    RunMigrations (RunMigrations exSchema0).1 = ((RunMigrations exSchema0).1, [])
    ∧ (RunMigrations exSchema0).2 = [1, 2, 3]
    ∧ ∀ i ∈ migrationIds,
        ((RunMigrations exSchema0).1.ledger.filter (fun e => e.1 == i)).length = 1 :=
  ⟨(runMigrations_idempotent exSchema0 (by decide)).1, by decide,
    (runMigrations_idempotent exSchema0 (by decide)).2⟩

/-! ## Cleanup lemmas (cleanup.go) -/

theorem markTargetDeleted_runs (db : DBState) (tid : Nat) :
    (MarkTargetSnapshotAsDeleted db tid).runs = db.runs := rfl

theorem markTargetDeleted_frame (db : DBState) (tid i : Nat) (t : TargetRecord)
    (h : db.targets[i]? = some t) (hne : t.id ≠ tid) :
    (MarkTargetSnapshotAsDeleted db tid).targets[i]? = some t := by
  simp [MarkTargetSnapshotAsDeleted, List.getElem?_map, h, hne]

theorem markRunDeleted_runs_frame (db : DBState) (rid i : Nat) (r : RunRecord)
    (h : db.runs[i]? = some r) (hne : r.id ≠ rid) :
    (MarkSnapshotRunAsDeleted db rid).runs[i]? = some r := by
  simp [MarkSnapshotRunAsDeleted, List.getElem?_map, h, hne]

theorem markRunDeleted_targets_frame (db : DBState) (rid i : Nat) (t : TargetRecord)
    (h : db.targets[i]? = some t) (hne : t.runId ≠ rid) :
    (MarkSnapshotRunAsDeleted db rid).targets[i]? = some t := by
  simp [MarkSnapshotRunAsDeleted, List.getElem?_map, h, hne]

theorem deleteTargetSnapshotFiles_calls (env : CleanupEnv) (t : TargetRecord)
    (c : StorageCall) (h : c ∈ (deleteTargetSnapshotFiles env t).2) :
    c = StorageCall.deleteDirectory env.bucketName t.uploadPath := by
  unfold deleteTargetSnapshotFiles at h
  split_ifs at h <;> simp_all

theorem cleanupRunTargets_cons (env : CleanupEnv) (db : DBState)
    (calls : List StorageCall) (t : TargetRecord) (ts : List TargetRecord) :
    cleanupRunTargets env db calls (t :: ts)
      = match (deleteTargetSnapshotFiles env t).1 with
        | some _ =>
            cleanupRunTargets env db (calls ++ (deleteTargetSnapshotFiles env t).2) ts
        | none =>
            cleanupRunTargets env (MarkTargetSnapshotAsDeleted db t.id)
              (calls ++ (deleteTargetSnapshotFiles env t).2) ts := rfl

theorem cleanupRunTargets_runs (env : CleanupEnv) (ts : List TargetRecord) :
    ∀ (db : DBState) (calls : List StorageCall),
    (cleanupRunTargets env db calls ts).1.runs = db.runs := by
  induction ts with
  | nil => intro db calls; rfl
  | cons t ts ih =>
    intro db calls
    cases hd : (deleteTargetSnapshotFiles env t).1 with
    | some e => simp only [cleanupRunTargets_cons, hd]; rw [ih]
    | none => simp only [cleanupRunTargets_cons, hd]; rw [ih, markTargetDeleted_runs]

theorem cleanupRunTargets_targets_frame (env : CleanupEnv) (ts : List TargetRecord) :
    ∀ (db : DBState) (calls : List StorageCall) (i : Nat) (t' : TargetRecord),
    db.targets[i]? = some t' → (∀ u ∈ ts, u.id ≠ t'.id) →
    (cleanupRunTargets env db calls ts).1.targets[i]? = some t' := by
  induction ts with
  | nil => intro db calls i t' h _; exact h
  | cons t ts ih =>
    intro db calls i t' h hne
    cases hd : (deleteTargetSnapshotFiles env t).1 with
    | some e =>
      simp only [cleanupRunTargets_cons, hd]
      exact ih _ _ _ _ h (fun u hu => hne u (by simp [hu]))
    | none =>
      simp only [cleanupRunTargets_cons, hd]
      refine ih _ _ _ _ ?_ (fun u hu => hne u (by simp [hu]))
      exact markTargetDeleted_frame _ _ _ _ h (fun he => hne t (by simp) (by rw [he]))

theorem cleanupRunTargets_calls (env : CleanupEnv) (ts : List TargetRecord) :
    ∀ (db : DBState) (calls : List StorageCall) (c : StorageCall),
    c ∈ (cleanupRunTargets env db calls ts).2 →
    c ∈ calls ∨ ∃ u ∈ ts, c = StorageCall.deleteDirectory env.bucketName u.uploadPath := by
  induction ts with
  | nil => intro db calls c h; exact Or.inl h
  | cons t ts ih =>
    intro db calls c h
    have hstep : ∀ (db2 : DBState),
        c ∈ (cleanupRunTargets env db2 (calls ++ (deleteTargetSnapshotFiles env t).2) ts).2 →
        c ∈ calls ∨ ∃ u ∈ t :: ts,
          c = StorageCall.deleteDirectory env.bucketName u.uploadPath := by
      intro db2 h2
      rcases ih db2 _ c h2 with hc | ⟨u, hu, hcu⟩
      · rcases List.mem_append.mp hc with hc2 | hc2
        · exact Or.inl hc2
        · exact Or.inr ⟨t, by simp, deleteTargetSnapshotFiles_calls env t c hc2⟩
      · exact Or.inr ⟨u, by simp [hu], hcu⟩
    cases hd : (deleteTargetSnapshotFiles env t).1 with
    | some e =>
      simp only [cleanupRunTargets_cons, hd] at h
      exact hstep _ h
    | none =>
      simp only [cleanupRunTargets_cons, hd] at h
      exact hstep _ h

theorem processRun_runs_frame (env : CleanupEnv) (acc : DBState × List StorageCall)
    (fr : FetchedRun) (i : Nat) (r : RunRecord) (h : acc.1.runs[i]? = some r)
    (hne : r.id ≠ fr.run.id) :
    (processRunForCleanup env acc fr).1.runs[i]? = some r := by
  simp only [processRunForCleanup]
  split
  · exact markRunDeleted_runs_frame _ _ _ _ (by rw [cleanupRunTargets_runs]; exact h) hne
  · show (cleanupRunTargets env acc.1 acc.2 _).1.runs[i]? = some r
    rw [cleanupRunTargets_runs]
    exact h

theorem processRun_targets_frame (env : CleanupEnv) (acc : DBState × List StorageCall)
    (fr : FetchedRun) (i : Nat) (t' : TargetRecord) (h : acc.1.targets[i]? = some t')
    (hrun : t'.runId ≠ fr.run.id) (hids : ∀ u ∈ fr.targets, u.id ≠ t'.id) :
    (processRunForCleanup env acc fr).1.targets[i]? = some t' := by
  have hin : (cleanupRunTargets env acc.1 acc.2
      ((fr.targets.filter (fun t => t.status == "success")).filter
        (fun t => !t.persisted))).1.targets[i]? = some t' := by
    apply cleanupRunTargets_targets_frame env _ acc.1 acc.2 i t' h
    intro u hu
    exact hids u (List.mem_of_mem_filter (List.mem_of_mem_filter hu))
  simp only [processRunForCleanup]
  split
  · exact markRunDeleted_targets_frame _ _ _ _ hin hrun
  · exact hin

theorem processRun_calls (env : CleanupEnv) (acc : DBState × List StorageCall)
    (fr : FetchedRun) (c : StorageCall) (h : c ∈ (processRunForCleanup env acc fr).2) :
    c ∈ acc.2 ∨ ∃ u ∈ fr.targets, u.status = "success" ∧ u.persisted = false ∧
      c = StorageCall.deleteDirectory env.bucketName u.uploadPath := by
  simp only [processRunForCleanup] at h
  have h2 : c ∈ (cleanupRunTargets env acc.1 acc.2
      ((fr.targets.filter (fun t => t.status == "success")).filter
        (fun t => !t.persisted))).2 := by
    revert h
    split <;> (intro h; exact h)
  rcases cleanupRunTargets_calls env _ acc.1 acc.2 c h2 with hc | ⟨u, hu, hcu⟩
  · exact Or.inl hc
  · right
    have hu1 := List.mem_filter.mp hu
    have hu2 := List.mem_filter.mp hu1.1
    refine ⟨u, hu2.1, by simpa using hu2.2, by simpa using hu1.2, hcu⟩

theorem processRunsForCleanup_cons (env : CleanupEnv) (acc : DBState × List StorageCall)
    (fr : FetchedRun) (frs : List FetchedRun) :
    processRunsForCleanup env acc (fr :: frs)
      = processRunsForCleanup env (processRunForCleanup env acc fr) frs := rfl

theorem processRuns_runs_frame (env : CleanupEnv) (frs : List FetchedRun) :
    ∀ (acc : DBState × List StorageCall) (i : Nat) (r : RunRecord),
    acc.1.runs[i]? = some r → (∀ fr ∈ frs, r.id ≠ fr.run.id) →
    (processRunsForCleanup env acc frs).1.runs[i]? = some r := by
  induction frs with
  | nil => intro acc i r h _; exact h
  | cons fr frs ih =>
    intro acc i r h hne
    rw [processRunsForCleanup_cons]
    exact ih _ i r (processRun_runs_frame env acc fr i r h (hne fr (by simp)))
      (fun fr2 hfr2 => hne fr2 (by simp [hfr2]))

theorem processRuns_targets_frame (env : CleanupEnv) (frs : List FetchedRun) :
    ∀ (acc : DBState × List StorageCall) (i : Nat) (t' : TargetRecord),
    acc.1.targets[i]? = some t' →
    (∀ fr ∈ frs, t'.runId ≠ fr.run.id ∧ ∀ u ∈ fr.targets, u.id ≠ t'.id) →
    (processRunsForCleanup env acc frs).1.targets[i]? = some t' := by
  induction frs with
  | nil => intro acc i t' h _; exact h
  | cons fr frs ih =>
    intro acc i t' h hne
    rw [processRunsForCleanup_cons]
    exact ih _ i t'
      (processRun_targets_frame env acc fr i t' h (hne fr (by simp)).1 (hne fr (by simp)).2)
      (fun fr2 hfr2 => hne fr2 (by simp [hfr2]))

theorem processRuns_calls (env : CleanupEnv) (frs : List FetchedRun) :
    ∀ (acc : DBState × List StorageCall) (c : StorageCall),
    c ∈ (processRunsForCleanup env acc frs).2 →
    c ∈ acc.2 ∨ ∃ fr ∈ frs, ∃ u ∈ fr.targets,
      u.status = "success" ∧ u.persisted = false ∧
        c = StorageCall.deleteDirectory env.bucketName u.uploadPath := by
  induction frs with
  | nil => intro acc c h; exact Or.inl h
  | cons fr frs ih =>
    intro acc c h
    rw [processRunsForCleanup_cons] at h
    rcases ih _ c h with hc | ⟨fr2, hfr2, u, hu, hs, hp, hcu⟩
    · rcases processRun_calls env acc fr c hc with hc2 | ⟨u, hu, hs, hp, hcu⟩
      · exact Or.inl hc2
      · exact Or.inr ⟨fr, by simp, u, hu, hs, hp, hcu⟩
    · exact Or.inr ⟨fr2, by simp [hfr2], u, hu, hs, hp, hcu⟩

theorem mem_fetched_targets (db : DBState) (fr : FetchedRun)
    (h : fr ∈ GetSuccessfulRunsForCleanup db) :
    ∀ u ∈ fr.targets, u.runId = fr.run.id ∧ u ∈ db.targets := by
  rcases List.mem_map.mp h with ⟨r, _, rfl⟩
  intro u hu
  have := List.mem_filter.mp hu
  exact ⟨by simpa using this.2, this.1⟩

/-! ## Claim theorems: retention partition -/

/-- Claim C7: a cleanup cycle fetches the non-deleted successful runs
(ordered by block height descending) and splits off the run-level persisted
ones; when at most `keepCount` non-persisted runs remain the cycle changes
nothing and issues no storage call; otherwise every storage delete it issues
belongs to a non-persisted successful target of one of the non-persisted
runs beyond the newest `keepCount`, and every run or target row of a run
outside that processed set is left untouched (target row ids are unique, as
sqlite's primary key guarantees). -/
theorem cleanupSnapshots_retention_policy (env : CleanupEnv) (db : DBState)
    (keepCount : Nat) (htids : (db.targets.map (fun t => t.id)).Nodup) :
    ((((GetSuccessfulRunsForCleanup db).filter
        (fun fr => !fr.run.persisted)).length ≤ keepCount) →
      cleanupSnapshots env db keepCount = (db, []))
    ∧ (∀ c ∈ (cleanupSnapshots env db keepCount).2,
        ∃ fr ∈ ((GetSuccessfulRunsForCleanup db).filter
            (fun fr => !fr.run.persisted)).drop keepCount,
          ∃ u ∈ fr.targets, u.status = "success" ∧ u.persisted = false ∧
            c = StorageCall.deleteDirectory env.bucketName u.uploadPath)
    ∧ (∀ (i : Nat) (r : RunRecord), db.runs[i]? = some r →
        r.id ∉ (((GetSuccessfulRunsForCleanup db).filter
            (fun fr => !fr.run.persisted)).drop keepCount).map (fun fr => fr.run.id) →
        (cleanupSnapshots env db keepCount).1.runs[i]? = some r)
    ∧ (∀ (i : Nat) (t : TargetRecord), db.targets[i]? = some t →
        t.runId ∉ (((GetSuccessfulRunsForCleanup db).filter
            (fun fr => !fr.run.persisted)).drop keepCount).map (fun fr => fr.run.id) →
        (cleanupSnapshots env db keepCount).1.targets[i]? = some t) := by
  have hnoop : (((GetSuccessfulRunsForCleanup db).filter
      (fun fr => !fr.run.persisted)).length ≤ keepCount) →
      cleanupSnapshots env db keepCount = (db, []) := by
    intro hle
    simp only [cleanupSnapshots]
    rw [if_pos hle]
  refine ⟨hnoop, ?_, ?_, ?_⟩
  · intro c hc
    by_cases hle : (((GetSuccessfulRunsForCleanup db).filter
        (fun fr => !fr.run.persisted)).length ≤ keepCount)
    · rw [hnoop hle] at hc
      simp at hc
    · have hcs : cleanupSnapshots env db keepCount
          = processRunsForCleanup env (db, [])
            (((GetSuccessfulRunsForCleanup db).filter
              (fun fr => !fr.run.persisted)).drop keepCount) := by
        simp only [cleanupSnapshots]
        rw [if_neg hle]
      rw [hcs] at hc
      rcases processRuns_calls env _ _ c hc with h0 | hgoal
      · simp at h0
      · exact hgoal
  · intro i r h hni
    by_cases hle : (((GetSuccessfulRunsForCleanup db).filter
        (fun fr => !fr.run.persisted)).length ≤ keepCount)
    · rw [hnoop hle]
      exact h
    · have hcs : cleanupSnapshots env db keepCount
          = processRunsForCleanup env (db, [])
            (((GetSuccessfulRunsForCleanup db).filter
              (fun fr => !fr.run.persisted)).drop keepCount) := by
        simp only [cleanupSnapshots]
        rw [if_neg hle]
      rw [hcs]
      refine processRuns_runs_frame env _ (db, []) i r h ?_
      intro fr hfr heq
      exact hni (List.mem_map.mpr ⟨fr, hfr, heq.symm⟩)
  · intro i t h hni
    by_cases hle : (((GetSuccessfulRunsForCleanup db).filter
        (fun fr => !fr.run.persisted)).length ≤ keepCount)
    · rw [hnoop hle]
      exact h
    · have hcs : cleanupSnapshots env db keepCount
          = processRunsForCleanup env (db, [])
            (((GetSuccessfulRunsForCleanup db).filter
              (fun fr => !fr.run.persisted)).drop keepCount) := by
        simp only [cleanupSnapshots]
        rw [if_neg hle]
      rw [hcs]
      refine processRuns_targets_frame env _ (db, []) i t h ?_
      intro fr hfr
      have hrid : t.runId ≠ fr.run.id := by
        intro heq
        exact hni (List.mem_map.mpr ⟨fr, hfr, heq.symm⟩)
      refine ⟨hrid, ?_⟩
      intro u hu heq
      have hfetched : fr ∈ GetSuccessfulRunsForCleanup db :=
        List.mem_of_mem_filter (List.mem_of_mem_drop hfr)
      have hfacts := mem_fetched_targets db fr hfetched u hu
      have hteq : u = t :=
        List.inj_on_of_nodup_map htids hfacts.2 (List.getElem?_mem h) heq
      exact hrid (by rw [← hteq]; exact hfacts.1)

/-- Claim C7 witness: with two successful non-persisted runs at heights 200
and 100 and `keepCount = 1`, only the older run (id 2) is processed: its
target's storage is deleted while run 1 and its target are untouched; and
with `keepCount = 5` the cycle is a no-op. -/
theorem cleanupSnapshots_retention_policy_witness :
    cleanupSnapshots exCleanupEnv exCleanupDb2 5 = (exCleanupDb2, [])
    ∧ (∀ c ∈ (cleanupSnapshots exCleanupEnv exCleanupDb2 1).2,
        c = StorageCall.deleteDirectory "bkt" "pb")
    ∧ (cleanupSnapshots exCleanupEnv exCleanupDb2 1).1.runs[0]?
        = some { id := 1, blockHeight := 200, status := "success", errorMessage := "",
                 dryRun := false, deleted := false, persisted := false }
    ∧ (cleanupSnapshots exCleanupEnv exCleanupDb2 1).1.targets[0]?
        = some { id := 10, runId := 1, aliasName := "a", uploadPath := "pa",
                 status := "success", errorMessage := "", dryRun := false,
                 deleted := false, persisted := false } := by
  have h5 := cleanupSnapshots_retention_policy exCleanupEnv exCleanupDb2 5 (by decide)
  have h1 := cleanupSnapshots_retention_policy exCleanupEnv exCleanupDb2 1 (by decide)
  refine ⟨h5.1 (by decide), ?_, ?_, ?_⟩
  · intro c hc
    rcases h1.2.1 c hc with ⟨fr, hfr, u, hu, _, _, hcu⟩
    have hlist : ((GetSuccessfulRunsForCleanup exCleanupDb2).filter
        (fun fr => !fr.run.persisted)).drop 1
        = [⟨⟨2, 100, "success", "", false, false, false⟩,
            [⟨11, 2, "b", "pb", "success", "", false, false, false⟩]⟩] := by
      decide
    rw [hlist] at hfr
    have hfr2 : fr = ⟨⟨2, 100, "success", "", false, false, false⟩,
        [⟨11, 2, "b", "pb", "success", "", false, false, false⟩]⟩ := by
      simpa using hfr
    subst hfr2
    have hu2 : u = ⟨11, 2, "b", "pb", "success", "", false, false, false⟩ := by
      simpa using hu
    subst hu2
    exact hcu
  · exact h1.2.2.1 0 _ (by decide) (by decide)
  · exact h1.2.2.2 0 _ (by decide) (by decide)

end EthSnapshotter
